import Mathlib

/-!
Verification of the storefront's size-sorting, checkout, webhook and admin-auth
logic against its specification.  The TypeScript runtime code is shallowly
embedded: JSON values become an inductive type, JavaScript number coercions
become functions into `Option ℚ` (`none` models `NaN`), the database tables
become lists of rows, and each HTTP handler becomes a pure function from its
inputs (environment, request pieces, database state) to a result record
carrying the response status and the new database state.  Opaque library
calls (HMAC digests, base64 decoding, JSON parsing) are passed in as function
parameters, so theorems quantify over them.
-/

namespace Storefront

/-! ## JavaScript primitive models -/

/-- Exact decimal number: value `mant / 10 ^ exp`.  JavaScript numbers in
this codebase are decimal literals and products/roundings thereof, all
exactly representable in this form; modelling them exactly (rather than in
binary floating point) keeps every arithmetic comparison kernel-computable.
Operations are integer-only. -/
structure Dec where
  mant : Int
  exp : Nat
deriving Repr, DecidableEq

/-- Rational value of a decimal number. -/
def Dec.toRat (d : Dec) : ℚ :=
  (d.mant : ℚ) / (10 : ℚ) ^ d.exp

/-- Embedding of an integer. -/
def Dec.ofInt (n : Int) : Dec :=
  ⟨n, 0⟩

/-- Comparison, by cross-multiplication. -/
def Dec.le (a b : Dec) : Prop :=
  a.mant * (10 : Int) ^ b.exp ≤ b.mant * (10 : Int) ^ a.exp

instance : DecidableRel Dec.le :=
  fun a b => inferInstanceAs (Decidable (_ ≤ _))

/-- Exact product. -/
def Dec.mul (a b : Dec) : Dec :=
  ⟨a.mant * b.mant, a.exp + b.exp⟩

/-- Exact difference. -/
def Dec.sub (a b : Dec) : Dec :=
  ⟨a.mant * (10 : Int) ^ b.exp - b.mant * (10 : Int) ^ a.exp, a.exp + b.exp⟩

/-- JSON values as produced by `JSON.parse` / `await request.json()`.
Objects are association lists whose keys are distinct (as `JSON.parse`
guarantees for its output). -/
inductive Json where
  | null : Json
  | bool (b : Bool) : Json
  | num (d : Dec) : Json
  | str (s : String) : Json
  | arr (items : List Json) : Json
  | obj (fields : List (String × Json)) : Json
deriving Repr

/-- Property access `body.k` on a parsed JSON value: a key lookup on objects,
`undefined` (here `none`) on everything else. -/
def Json.get (j : Json) (k : String) : Option Json :=
  match j with
  | .obj fields => fields.lookup k
  | _ => none

/-- Characters removed by `String.prototype.trim` (ASCII portion; the labels,
prices and passwords handled by this codebase are ASCII). -/
def isJsWhitespace (c : Char) : Bool :=
  c.toNat == 32 || c.toNat == 9 || c.toNat == 10 || c.toNat == 13 ||
    c.toNat == 11 || c.toNat == 12

/-- Decimal digit test, `48 ≤ code ≤ 57`, as used by the numeric parsers. -/
def isDigitChar (c : Char) : Bool :=
  48 ≤ c.toNat && c.toNat ≤ 57

/-- Model of `String.prototype.trim`. -/
def jsTrim (s : String) : String :=
  ⟨((s.toList.dropWhile isJsWhitespace).reverse.dropWhile isJsWhitespace).reverse⟩

/-- Model of `String.prototype.toLowerCase` (ASCII case mapping). -/
def jsToLower (s : String) : String :=
  ⟨s.toList.map Char.toLower⟩

/-- Model of `String.prototype.toUpperCase` (ASCII case mapping). -/
def jsToUpper (s : String) : String :=
  ⟨s.toList.map Char.toUpper⟩

/-- Value of a list of decimal digit characters, most significant first. -/
def digitsToNat (ds : List Char) : Nat :=
  ds.foldl (fun n c => 10 * n + (c.toNat - 48)) 0

/-- Character-level body of the `parseInt(s, 10)` model: skip leading
whitespace, optional sign, then the longest prefix of decimal digits;
`none` models `NaN` (no digits). -/
def jsParseIntChars (cs : List Char) : Option Int :=
  let cs0 := cs.dropWhile isJsWhitespace
  let sign : Int :=
    match cs0 with
    | c :: _ => if c = '-' then -1 else 1
    | [] => 1
  let cs1 : List Char :=
    match cs0 with
    | c :: rest => if c = '-' ∨ c = '+' then rest else c :: rest
    | [] => []
  let ds := cs1.takeWhile isDigitChar
  if ds.isEmpty then none else some (sign * (digitsToNat ds : Int))

/-- Model of `parseInt(s, 10)`. -/
def jsParseInt (s : String) : Option Int :=
  jsParseIntChars s.toList

/-- Shared decimal parse used by the `parseFloat` and `Number` models: after
an optional sign, digits, an optional dot and further digits, it returns the
parsed value together with the unconsumed remainder, or `none` when no digit
was consumed.  (Exponent notation and `Infinity` fall outside the price and
size-label grammar of this codebase and are not modelled.) -/
def parseDecimalPrefix (cs : List Char) : Option (Dec × List Char) :=
  let sign : Int :=
    match cs with
    | c :: _ => if c = '-' then -1 else 1
    | [] => 1
  let cs1 : List Char :=
    match cs with
    | c :: rest => if c = '-' ∨ c = '+' then rest else cs
    | [] => []
  let intPart := cs1.takeWhile isDigitChar
  let rest1 := cs1.dropWhile isDigitChar
  let fracPart : List Char :=
    match rest1 with
    | c :: r => if c = '.' then r.takeWhile isDigitChar else []
    | [] => []
  let rest2 : List Char :=
    match rest1 with
    | c :: r => if c = '.' then r.dropWhile isDigitChar else rest1
    | [] => []
  if intPart.isEmpty && fracPart.isEmpty then none
  else
    some (⟨sign * ((digitsToNat intPart : Int) * (10 : Int) ^ fracPart.length +
      (digitsToNat fracPart : Int)), fracPart.length⟩, rest2)

/-- Model of `parseFloat`: skip leading whitespace, parse the longest numeric
prefix, ignore the rest; `none` models `NaN`. -/
def jsParseFloat (s : String) : Option Dec :=
  match parseDecimalPrefix (s.toList.dropWhile isJsWhitespace) with
  | some (d, _) => some d
  | none => none

/-- Model of `Number(s)` for a string argument: whitespace-trimmed empty
string is `0`; otherwise the whole string must be a numeric literal. -/
def jsStringToNumber (s : String) : Option Dec :=
  let t := jsTrim s
  if t == "" then some (Dec.ofInt 0)
  else
    match parseDecimalPrefix t.toList with
    | some (d, []) => some d
    | _ => none

/-- Model of the `Number(x)` coercion on parsed JSON values.  Arrays and
objects coerce through `ToPrimitive`/`toString`; no payload field in this
codebase carries them into `Number`, so they are modelled as `NaN`. -/
def jsToNumber : Json → Option Dec
  | .null => some (Dec.ofInt 0)
  | .bool b => some (Dec.ofInt (if b then 1 else 0))
  | .num d => some d
  | .str s => jsStringToNumber s
  | .arr _ => none
  | .obj _ => none

/-- Model of `Math.floor` on a decimal number: floored (Euclidean, since the
divisor is positive) integer division of the mantissa by the scale. -/
def Dec.floor (d : Dec) : Int :=
  d.mant / (10 : Int) ^ d.exp

/-- Model of `Math.floor`, propagating `NaN`. -/
def jsFloor (x : Option Dec) : Option Int :=
  x.map Dec.floor

/-- Model of `Math.round` on a (non-`NaN`) number: round half towards
positive infinity, `floor(x + 1/2)`. -/
def jsRound (d : Dec) : Int :=
  (2 * d.mant + (10 : Int) ^ d.exp) / (2 * (10 : Int) ^ d.exp)

theorem Dec.toRat_ofInt (n : Int) : (Dec.ofInt n).toRat = (n : ℚ) := by
  simp [Dec.ofInt, Dec.toRat]

theorem Dec.le_iff_toRat (a b : Dec) : a.le b ↔ a.toRat ≤ b.toRat := by
  unfold Dec.le Dec.toRat
  rw [div_le_div_iff (by positivity) (by positivity)]
  constructor
  · intro h
    exact_mod_cast h
  · intro h
    exact_mod_cast h

theorem Dec.toRat_sub (a b : Dec) : (a.sub b).toRat = a.toRat - b.toRat := by
  unfold Dec.sub Dec.toRat
  have h10 : ((10 : ℚ) ^ a.exp) ≠ 0 := by positivity
  have h10b : ((10 : ℚ) ^ b.exp) ≠ 0 := by positivity
  field_simp
  push_cast
  ring

theorem Dec.toRat_mul (a b : Dec) : (a.mul b).toRat = a.toRat * b.toRat := by
  unfold Dec.mul Dec.toRat
  rw [pow_add, Int.cast_mul, div_mul_div_comm]

theorem Dec.floor_eq (d : Dec) : d.floor = ⌊d.toRat⌋ := by
  unfold Dec.floor Dec.toRat
  have h : ((10 : Int) ^ d.exp) = (((10 ^ d.exp : Nat) : Int)) := by push_cast; ring
  have hq : ((10 : ℚ) ^ d.exp) = (((10 ^ d.exp : Nat) : ℚ)) := by push_cast; ring
  rw [h, hq, Rat.floor_intCast_div_natCast]

theorem jsRound_eq (d : Dec) : jsRound d = ⌊d.toRat + 1 / 2⌋ := by
  unfold jsRound Dec.toRat
  have hval : (d.mant : ℚ) / (10 : ℚ) ^ d.exp + 1 / 2 =
      ((2 * d.mant + (10 : Int) ^ d.exp : Int) : ℚ) / (((2 * 10 ^ d.exp : Nat) : ℚ)) := by
    have h10 : ((10 : ℚ) ^ d.exp) ≠ 0 := by positivity
    field_simp
    push_cast
    ring
  rw [hval, Rat.floor_intCast_div_natCast]
  congr 1
  push_cast
  ring

/-- Byte length of the UTF-8 encoding, as `Buffer.byteLength` /
`Buffer.from(s, 'utf8').length` compute it. -/
def utf8Len (s : String) : Nat :=
  s.utf8ByteSize

/-- Decimal digit character for a value below ten. -/
def digitChar (n : Nat) : Char :=
  if n = 0 then '0' else if n = 1 then '1' else if n = 2 then '2'
  else if n = 3 then '3' else if n = 4 then '4' else if n = 5 then '5'
  else if n = 6 then '6' else if n = 7 then '7' else if n = 8 then '8'
  else '9'

/-- Fuel-based digit printer (structural recursion keeps it
kernel-computable). -/
def natToDecimalAux : Nat → Nat → List Char
  | 0, _ => []
  | fuel + 1, n =>
    if n < 10 then [digitChar n]
    else natToDecimalAux fuel (n / 10) ++ [digitChar (n % 10)]

/-- Decimal digit list of a natural number, most significant first; models
`Number.prototype.toString` on the integers (such as `Date.now()` values)
that this codebase prints. -/
def natToDecimal (n : Nat) : List Char :=
  natToDecimalAux (n + 1) n

/-- String form of `natToDecimal`. -/
def natToString (n : Nat) : String :=
  ⟨natToDecimal n⟩

theorem digitChar_toNat {n : Nat} (h : n < 10) : (digitChar n).toNat = n + 48 := by
  interval_cases n <;> rfl

theorem isDigitChar_digitChar {n : Nat} (h : n < 10) : isDigitChar (digitChar n) = true := by
  interval_cases n <;> rfl

theorem digitsToNat_append (xs : List Char) (c : Char) :
    digitsToNat (xs ++ [c]) = 10 * digitsToNat xs + (c.toNat - 48) := by
  simp [digitsToNat, List.foldl_append]

theorem natToDecimalAux_spec (fuel : Nat) :
    ∀ n, n < fuel → natToDecimalAux fuel n ≠ [] ∧
      (∀ c ∈ natToDecimalAux fuel n, isDigitChar c = true) ∧
      digitsToNat (natToDecimalAux fuel n) = n := by
  induction fuel with
  | zero => intro n h; omega
  | succ fuel ih =>
    intro n h
    rw [natToDecimalAux]
    by_cases h10 : n < 10
    · rw [if_pos h10]
      refine ⟨by simp, ?_, by simp [digitsToNat, digitChar_toNat h10]⟩
      intro c hc
      simp only [List.mem_singleton] at hc
      subst hc
      exact isDigitChar_digitChar h10
    · rw [if_neg h10]
      have hlt : n / 10 < fuel :=
        lt_of_lt_of_le (Nat.div_lt_self (by omega) (by omega)) (by omega)
      obtain ⟨hne, hdig, hval⟩ := ih (n / 10) hlt
      refine ⟨by simp, ?_, ?_⟩
      · intro c hc
        rcases List.mem_append.mp hc with h1 | h2
        · exact hdig c h1
        · simp only [List.mem_singleton] at h2
          subst h2
          exact isDigitChar_digitChar (Nat.mod_lt _ (by omega))
      · rw [digitsToNat_append, hval, digitChar_toNat (Nat.mod_lt _ (by omega))]
        omega

theorem natToDecimal_ne_nil (n : Nat) : natToDecimal n ≠ [] :=
  (natToDecimalAux_spec (n + 1) n (by omega)).1

theorem natToDecimal_digits (n : Nat) :
    ∀ c ∈ natToDecimal n, isDigitChar c = true :=
  (natToDecimalAux_spec (n + 1) n (by omega)).2.1

theorem digitsToNat_natToDecimal (n : Nat) : digitsToNat (natToDecimal n) = n :=
  (natToDecimalAux_spec (n + 1) n (by omega)).2.2

theorem isDigitChar_not_whitespace {c : Char} (h : isDigitChar c = true) :
    isJsWhitespace c = false := by
  simp only [isDigitChar, Bool.and_eq_true, decide_eq_true_eq] at h
  simp only [isJsWhitespace, Bool.or_eq_false_iff, beq_eq_false_iff_ne, ne_eq]
  omega

theorem isDigitChar_ne_dot {c : Char} (h : isDigitChar c = true) : c ≠ '.' := by
  intro hc
  subst hc
  exact absurd h (by decide)

theorem isDigitChar_ne_semicolon {c : Char} (h : isDigitChar c = true) : c ≠ ';' := by
  intro hc
  subst hc
  exact absurd h (by decide)

theorem isDigitChar_ne_minus {c : Char} (h : isDigitChar c = true) : c ≠ '-' := by
  intro hc
  subst hc
  exact absurd h (by decide)

theorem isDigitChar_ne_plus {c : Char} (h : isDigitChar c = true) : c ≠ '+' := by
  intro hc
  subst hc
  exact absurd h (by decide)

theorem jsParseIntChars_natToDecimal (n : Nat) :
    jsParseIntChars (natToDecimal n) = some (n : Int) := by
  obtain ⟨c, cs, hcons⟩ : ∃ c cs, natToDecimal n = c :: cs := by
    cases h : natToDecimal n with
    | nil => exact absurd h (natToDecimal_ne_nil n)
    | cons c cs => exact ⟨c, cs, rfl⟩
  have hdigits := natToDecimal_digits n
  have hall : ∀ x ∈ c :: cs, isDigitChar x = true := hcons ▸ hdigits
  have hc : isDigitChar c = true := hall c (List.mem_cons_self c cs)
  have hdrop : (c :: cs).dropWhile isJsWhitespace = c :: cs := by
    rw [List.dropWhile_cons, isDigitChar_not_whitespace hc]
    simp
  have htake : (c :: cs).takeWhile isDigitChar = c :: cs :=
    List.takeWhile_eq_self_iff.mpr hall
  have hval : digitsToNat (c :: cs) = n := hcons ▸ digitsToNat_natToDecimal n
  unfold jsParseIntChars
  rw [hcons, hdrop]
  simp only [isDigitChar_ne_minus hc, isDigitChar_ne_plus hc, if_false, false_or,
    or_false, htake, List.isEmpty_cons, Bool.false_eq_true, if_false, hval]
  simp

/-- Round trip: the `parseInt` model recovers any printed natural number. -/
theorem jsParseInt_natToString (n : Nat) : jsParseInt (natToString n) = some (n : Int) :=
  jsParseIntChars_natToDecimal n

/-! ## Size comparator (`sortSizesByOrder` in `src/lib/db/queries.ts` and
`sortSizes` in the public sizes endpoint) -/

/-- Letter size rank table `LETTER_SIZE_ORDER` from `src/lib/db/queries.ts`
(`{'XXS':0,'XS':1,'S':2,'M':3,'L':4,'XL':5,'XXL':6,'2XL':6,'3XL':7,'4XL':8}`);
`none` models an absent key, read back through `?? 999` at the use site. -/
def LETTER_SIZE_ORDER (s : String) : Option Nat :=
  if s = "XXS" then some 0
  else if s = "XS" then some 1
  else if s = "S" then some 2
  else if s = "M" then some 3
  else if s = "L" then some 4
  else if s = "XL" then some 5
  else if s = "XXL" then some 6
  else if s = "2XL" then some 6
  else if s = "3XL" then some 7
  else if s = "4XL" then some 8
  else none

/-- Identical table redeclared by the public sizes endpoint
(`src/pages/api/product/[slug]/sizes.ts`). -/
def LETTER_SIZE_ORDER_ENDPOINT (s : String) : Option Nat :=
  LETTER_SIZE_ORDER s

/-- Element type of the lists the comparator sorts: a size label with its
inventory quantity. -/
structure SizeRow where
  size : String
  quantity : Int
deriving Repr, DecidableEq

/-- Model of `sa.replace(/[^\d.]/g, '')`: keep only digits and dots. -/
def stripToDigitsDots (s : String) : String :=
  ⟨s.toList.filter (fun c => isDigitChar c || c == '.')⟩

/-- Model of the truthiness of `sa.match(/\d/)`. -/
def hasDigit (s : String) : Bool :=
  s.toList.any isDigitChar

/-- Comparator body shared verbatim by `sortSizesByOrder` (queries.ts) and
`sortSizes` (sizes endpoint).  Returns the comparator value as a rational
(the JavaScript function returns a number). -/
def sizeCmp (a b : SizeRow) : Dec :=
  let sa := jsTrim a.size
  let sb := jsTrim b.size
  if jsToLower sa = "one size" ∧ jsToLower sb ≠ "one size" then Dec.ofInt 1
  else if jsToLower sb = "one size" ∧ jsToLower sa ≠ "one size" then Dec.ofInt (-1)
  else if jsToLower sa = "one size" ∧ jsToLower sb = "one size" then Dec.ofInt 0
  else
    let numA := jsParseFloat (stripToDigitsDots sa)
    let numB := jsParseFloat (stripToDigitsDots sb)
    let aIsNum := numA.isSome = true ∧ hasDigit sa = true
    let bIsNum := numB.isSome = true ∧ hasDigit sb = true
    if aIsNum ∧ bIsNum then (numA.getD (Dec.ofInt 0)).sub (numB.getD (Dec.ofInt 0))
    else if aIsNum ∧ ¬bIsNum then Dec.ofInt (-1)
    else if ¬aIsNum ∧ bIsNum then Dec.ofInt 1
    else
      let orderA := (LETTER_SIZE_ORDER (jsToUpper sa)).getD 999
      let orderB := (LETTER_SIZE_ORDER (jsToUpper sb)).getD 999
      Dec.ofInt ((orderA : Int) - (orderB : Int))

/-- Comparator relation `cmp(a,b) <= 0` under which the JavaScript stable
sort orders the list. -/
def sizeRel (a b : SizeRow) : Prop :=
  (sizeCmp a b).le (Dec.ofInt 0)

instance : DecidableRel sizeRel :=
  fun a b => inferInstanceAs (Decidable (Dec.le _ _))

/-- Model of the two (textually identical) sorting functions.  JavaScript
`Array.prototype.sort` with a consistent comparator produces a stable sort
by `cmp(a,b) <= 0`; insertion sort realises exactly that. -/
def sortSizes (l : List SizeRow) : List SizeRow :=
  List.insertionSort sizeRel l

/-- The catalog read layer copy, `sortSizesByOrder` in queries.ts. -/
def sortSizesByOrder (l : List SizeRow) : List SizeRow :=
  sortSizes l

/-- Classification the comparator induces on a label: `0` = contains a digit
and its digit/dot projection parses (sorted first, by embedded number),
`1` = digit-free label (sorted by the rank table), `2` = "one size"
(sorted last). -/
def sizeClass (s : String) : Nat :=
  if jsToLower (jsTrim s) = "one size" then 2
  else if (jsParseFloat (stripToDigitsDots (jsTrim s))).isSome = true ∧
      hasDigit (jsTrim s) = true then 0
  else 1

/-- Secondary sort key within a class: the embedded number for numeric
labels, the rank-table value (default 999) for letter labels. -/
def sizeSubkey (s : String) : ℚ :=
  if jsToLower (jsTrim s) = "one size" then 0
  else if (jsParseFloat (stripToDigitsDots (jsTrim s))).isSome = true ∧
      hasDigit (jsTrim s) = true then
    ((jsParseFloat (stripToDigitsDots (jsTrim s))).getD (Dec.ofInt 0)).toRat
  else ((LETTER_SIZE_ORDER (jsToUpper (jsTrim s))).getD 999 : ℚ)

/-- Semantic ordering: lexicographic on (class, subkey). -/
def sizeLE (a b : SizeRow) : Prop :=
  sizeClass a.size < sizeClass b.size ∨
    (sizeClass a.size = sizeClass b.size ∧ sizeSubkey a.size ≤ sizeSubkey b.size)

theorem Dec.le_zero_iff (d : Dec) : d.le (Dec.ofInt 0) ↔ d.toRat ≤ 0 := by
  rw [Dec.le_iff_toRat, Dec.toRat_ofInt]
  norm_num

theorem sizeRel_iff_sizeLE (a b : SizeRow) : sizeRel a b ↔ sizeLE a b := by
  unfold sizeRel sizeCmp sizeLE sizeClass sizeSubkey
  by_cases ha : jsToLower (jsTrim a.size) = "one size" <;>
    by_cases hb : jsToLower (jsTrim b.size) = "one size"
  · -- both "one size": comparator 0, both in class 2 with equal subkeys
    simp [ha, hb, Dec.le_zero_iff, Dec.toRat_ofInt]
  · -- a is "one size", b is not: comparator 1, class 2 vs class below 2
    by_cases hnb : (jsParseFloat (stripToDigitsDots (jsTrim b.size))).isSome = true ∧
        hasDigit (jsTrim b.size) = true <;>
      simp [ha, hb, hnb, Dec.le_zero_iff, Dec.toRat_ofInt]
  · -- b is "one size", a is not: comparator -1, class below 2 vs class 2
    by_cases hna : (jsParseFloat (stripToDigitsDots (jsTrim a.size))).isSome = true ∧
        hasDigit (jsTrim a.size) = true <;>
      simp [ha, hb, hna, Dec.le_zero_iff, Dec.toRat_ofInt]
  · -- neither is "one size": split on the numeric classification
    by_cases hna : (jsParseFloat (stripToDigitsDots (jsTrim a.size))).isSome = true ∧
        hasDigit (jsTrim a.size) = true <;>
      by_cases hnb : (jsParseFloat (stripToDigitsDots (jsTrim b.size))).isSome = true ∧
        hasDigit (jsTrim b.size) = true
    · -- both numeric: numA - numB <= 0 iff numA <= numB
      simp [ha, hb, hna, hnb, Dec.le_zero_iff, Dec.toRat_sub, sub_nonpos]
    · -- a numeric, b not: comparator -1, class 0 vs class 1
      simp [ha, hb, hna, hnb, Dec.le_zero_iff, Dec.toRat_ofInt]
    · -- b numeric, a not: comparator 1, class 1 vs class 0
      simp [ha, hb, hna, hnb, Dec.le_zero_iff, Dec.toRat_ofInt]
    · -- neither numeric: rank difference, cast from Nat
      have hcast : ((((LETTER_SIZE_ORDER (jsToUpper (jsTrim a.size))).getD 999 : Int) -
            ((LETTER_SIZE_ORDER (jsToUpper (jsTrim b.size))).getD 999 : Int) : Int) : ℚ) ≤ 0 ↔
          ((LETTER_SIZE_ORDER (jsToUpper (jsTrim a.size))).getD 999 : ℚ) ≤
            ((LETTER_SIZE_ORDER (jsToUpper (jsTrim b.size))).getD 999 : ℚ) := by
        push_cast
        exact sub_nonpos
      simp [ha, hb, hna, hnb, Dec.le_zero_iff, Dec.toRat_ofInt, hcast]

instance : IsTotal SizeRow sizeRel :=
  ⟨fun a b => by
    rw [sizeRel_iff_sizeLE, sizeRel_iff_sizeLE]
    rcases lt_trichotomy (sizeClass a.size) (sizeClass b.size) with h | h | h
    · exact Or.inl (Or.inl h)
    · rcases le_total (sizeSubkey a.size) (sizeSubkey b.size) with hs | hs
      · exact Or.inl (Or.inr ⟨h, hs⟩)
      · exact Or.inr (Or.inr ⟨h.symm, hs⟩)
    · exact Or.inr (Or.inl h)⟩

instance : IsTrans SizeRow sizeRel :=
  ⟨fun a b c hab hbc => by
    rw [sizeRel_iff_sizeLE] at hab hbc ⊢
    rcases hab with h1 | ⟨h1, h1s⟩ <;> rcases hbc with h2 | ⟨h2, h2s⟩
    · exact Or.inl (h1.trans h2)
    · exact Or.inl (h2 ▸ h1)
    · exact Or.inl (h1 ▸ h2)
    · exact Or.inr ⟨h1.trans h2, h1s.trans h2s⟩⟩

/-- C1 (counterexample).  The claim asserts that the letter labels follow the
rank table `XXS<XS<S<M<L<XL<XXL=2XL<3XL<4XL` in the sorted output.  But
`"2XL"` contains a digit, so the comparator classifies it as numeric (value
`2`) and sorts it before every digit-free label: sorting `["S","2XL"]`
produces `["2XL","S"]`, violating the claimed rank order `S (2) < 2XL (6)`.
The `2XL`/`3XL`/`4XL` entries of the rank table are unreachable. -/
theorem c1_counterexample :
    sortSizes [⟨"S", 0⟩, ⟨"2XL", 0⟩] = [⟨"2XL", 0⟩, ⟨"S", 0⟩] ∧
    LETTER_SIZE_ORDER "S" = some 2 ∧
    LETTER_SIZE_ORDER "2XL" = some 6 ∧
    ¬ (sortSizes [⟨"S", 0⟩, ⟨"2XL", 0⟩]).Pairwise
        (fun x y => (LETTER_SIZE_ORDER x.size).getD 999 ≤
          (LETTER_SIZE_ORDER y.size).getD 999) := by
  refine ⟨by decide, by decide, by decide, ?_⟩
  intro h
  rw [show sortSizes [⟨"S", 0⟩, ⟨"2XL", 0⟩] = [⟨"2XL", 0⟩, ⟨"S", 0⟩] from by decide] at h
  have h2 := List.rel_of_pairwise_cons h (List.mem_singleton.mpr rfl)
  exact absurd h2 (by decide)

/-- C1 (amended).  For every list of size rows, both comparator copies sort
it into the same order, which is a permutation of the input that is sorted
by the lexicographic key (class, subkey) where: class 2 ("one size",
trimmed case-insensitively) is last; class 0 — any label containing a digit
whose digit/dot projection parses, which includes `2XL`, `3XL` and `4XL` —
is first, ascending by its embedded number; class 1 (digit-free labels) is
in between, ordered by the rank table restricted to its digit-free entries
(`XXS<XS<S<M<L<XL<XXL`) with unrecognized labels ranked 999, after all
known ones.  The spec's own example sorts as claimed. -/
theorem c1_size_comparator (l : List SizeRow) :
    (sortSizes l).Perm l ∧
    (sortSizes l).Pairwise sizeLE ∧
    (∀ a b : SizeRow, (sizeCmp a b).le (Dec.ofInt 0) ↔ sizeLE a b) ∧
    sortSizesByOrder l = sortSizes l ∧
    sortSizes [⟨"L", 1⟩, ⟨"28\"", 1⟩, ⟨"One Size", 1⟩, ⟨"XS", 1⟩] =
      [⟨"28\"", 1⟩, ⟨"XS", 1⟩, ⟨"L", 1⟩, ⟨"One Size", 1⟩] := by
  refine ⟨List.perm_insertionSort sizeRel l, ?_, sizeRel_iff_sizeLE, rfl, by decide⟩
  exact (List.sorted_insertionSort sizeRel l).imp
    (fun hab => (sizeRel_iff_sizeLE _ _).mp hab)

/-! ## BTCPay webhook handler (`POST /api/webhooks/btcpay`) -/

/-- Order status enum (`order_status` in the schema). -/
inductive OrderStatus where
  | pending
  | processing
  | settled
  | expired
  | invalid
deriving Repr, DecidableEq

/-- Row of the `btcpay_orders` table (timestamps omitted). -/
structure BtcpayOrder where
  id : String
  productId : String
  productName : String
  quantity : Int
  size : Option String
  amount : String
  currency : String
  status : OrderStatus
  btcpayInvoiceId : Option String
deriving Repr, DecidableEq

/-- Modelled from the spec: `getOrderByBtcpayInvoiceId` (imported by the
webhook route from `@lib/db/queries` but not present under `src/`) — "The
order is located by external invoice id". -/
def getOrderByBtcpayInvoiceId (invoiceId : String) (orders : List BtcpayOrder) :
    Option BtcpayOrder :=
  orders.find? (fun o => o.btcpayInvoiceId == some invoiceId)

/-- Modelled from the spec: `updateBtcpayOrderStatus` (imported by the
webhook route from `@lib/db/queries` but not present under `src/`) —
"updates the matching order row" to the mapped status. -/
def updateBtcpayOrderStatus (orderId : String) (st : OrderStatus)
    (orders : List BtcpayOrder) : List BtcpayOrder :=
  orders.map (fun o => if o.id == orderId then { o with status := st } else o)

/-- Value a JavaScript bracket read on the event table can yield besides
`undefined`: one of the object's own four entries, or a truthy member
inherited from `Object.prototype` (the table is a plain object literal, so
keys like `"constructor"` or `"toString"` resolve to inherited functions). -/
inductive StatusLookup where
  | own (st : OrderStatus)
  | inherited
deriving Repr, DecidableEq

/-- Property names every plain object literal inherits from
`Object.prototype` (ECMA-262 §20.2.3 plus the `__proto__` accessor and the
legacy `__define…`/`__lookup…` accessor methods); reading any of them
yields a truthy value (a function, or for `__proto__` the prototype
object). -/
def OBJECT_PROTOTYPE_KEYS : List String :=
  ["constructor", "hasOwnProperty", "isPrototypeOf", "propertyIsEnumerable",
   "toLocaleString", "toString", "valueOf", "__proto__", "__defineGetter__",
   "__defineSetter__", "__lookupGetter__", "__lookupSetter__"]

/-- Model of the bracket lookup `EVENT_TO_STATUS[eventType]` on the plain
object literal from the webhook route: the four own entries map to their
statuses; an `Object.prototype` property name surfaces as a truthy
non-status value; anything else is `undefined`. -/
def EVENT_TO_STATUS (t : String) : Option StatusLookup :=
  if t = "InvoiceProcessing" then some (.own .processing)
  else if t = "InvoiceSettled" then some (.own .settled)
  else if t = "InvoiceExpired" then some (.own .expired)
  else if t = "InvoiceInvalid" then some (.own .invalid)
  else if OBJECT_PROTOTYPE_KEYS.contains t then some .inherited
  else none

/-- Model of `verifyWebhookSignature(rawBody, signatureHeader)`.  The
HMAC-SHA256 hex digest is abstracted as the function parameter `hmacHex`
(secret → body → digest).  `timingSafeEqual` on two equal-length UTF-8
buffers decides exactly string equality, and is preceded by the source's
byte-length guard. -/
def verifyWebhookSignature (hmacHex : String → String → String)
    (webhookSecret : Option String) (rawBody : String)
    (signatureHeader : Option String) : Bool :=
  match webhookSecret, signatureHeader with
  | some secret, some sig =>
    if secret = "" then false
    else
      let expected := "sha256=" ++ hmacHex secret rawBody
      if utf8Len sig ≠ utf8Len expected then false
      else sig == expected
  | _, _ => false

/-- Parsed shape of the webhook JSON payload (`{ type?, invoiceId? }`). -/
structure WebhookPayload where
  eventType : Option String
  invoiceId : Option String
deriving Repr, DecidableEq

/-- Result of one webhook delivery: HTTP status, the orders table afterward,
whether `JSON.parse` was reached, and whether any database call ran. -/
structure WebhookResult where
  status : Nat
  orders : List BtcpayOrder
  jsonParsed : Bool
  dbTouched : Bool
deriving Repr, DecidableEq

/-- Model of the webhook route's `POST` handler.  `JSON.parse` is abstracted
as the `parseJson` parameter (`none` models a parse exception); the secret
is `none` when `BTCPAY_WEBHOOK_SECRET` is unset.  When the lookup hits an
inherited `Object.prototype` member, `if (!status)` does not fire (the
value is truthy) and the handler proceeds to the order lookup; the
subsequent `updateBtcpayOrderStatus(order.id, status)` then tries to write
a function into the `order_status` enum column, which the database rejects,
and since the route has no try/catch the error surfaces as the platform's
500 response with no state change. -/
def webhookPOST (hmacHex : String → String → String)
    (parseJson : String → Option WebhookPayload)
    (secret : Option String) (rawBody : String) (sig : Option String)
    (orders : List BtcpayOrder) : WebhookResult :=
  if secret.getD "" = "" then ⟨500, orders, false, false⟩
  else if verifyWebhookSignature hmacHex secret rawBody sig = false then
    ⟨401, orders, false, false⟩
  else
    match parseJson rawBody with
    | none => ⟨400, orders, true, false⟩
    | some payload =>
      match payload.invoiceId with
      | none => ⟨400, orders, true, false⟩
      | some invId =>
        if invId = "" then ⟨400, orders, true, false⟩
        else
          let st : Option StatusLookup :=
            match payload.eventType with
            | some t => if t = "" then none else EVENT_TO_STATUS t
            | none => none
          match st with
          | none => ⟨200, orders, true, false⟩
          | some lookup =>
            match getOrderByBtcpayInvoiceId invId orders with
            | none => ⟨404, orders, true, true⟩
            | some order =>
              match lookup with
              | .own status =>
                ⟨200, updateBtcpayOrderStatus order.id status orders, true, true⟩
              | .inherited => ⟨500, orders, true, true⟩

theorem verifyWebhookSignature_eq_false (hmacHex : String → String → String)
    (s rawBody : String) (sig : Option String)
    (hneq : sig ≠ some ("sha256=" ++ hmacHex s rawBody)) :
    verifyWebhookSignature hmacHex (some s) rawBody sig = false := by
  match sig with
  | none => rfl
  | some v =>
    unfold verifyWebhookSignature
    by_cases hs : s = ""
    · simp [hs]
    · have hv : v ≠ "sha256=" ++ hmacHex s rawBody := by
        intro h
        exact hneq (by rw [h])
      by_cases hlen : utf8Len v ≠ utf8Len ("sha256=" ++ hmacHex s rawBody)
      · simp [hs, hlen]
      · simp [hs, hlen, hv]

/-- Authenticated delivery with a known event type and a matching order:
helper lemma shared by the mapping and idempotency claims. -/
theorem webhookPOST_known_event (hmacHex : String → String → String)
    (parseJson : String → Option WebhookPayload) (s rawBody : String)
    (orders : List BtcpayOrder) (payload : WebhookPayload)
    (t invId : String) (st : OrderStatus) (order : BtcpayOrder)
    (hsec : s ≠ "")
    (hparse : parseJson rawBody = some payload)
    (htype : payload.eventType = some t)
    (hst : EVENT_TO_STATUS t = some (.own st))
    (hinv : payload.invoiceId = some invId)
    (hinvne : invId ≠ "")
    (horder : getOrderByBtcpayInvoiceId invId orders = some order) :
    webhookPOST hmacHex parseJson (some s) rawBody
        (some ("sha256=" ++ hmacHex s rawBody)) orders =
      ⟨200, updateBtcpayOrderStatus order.id st orders, true, true⟩ := by
  have htne : t ≠ "" := by
    intro h
    rw [h] at hst
    exact Option.noConfusion hst
  have hverify : verifyWebhookSignature hmacHex (some s) rawBody
      (some ("sha256=" ++ hmacHex s rawBody)) = true := by
    unfold verifyWebhookSignature
    simp [hsec]
  unfold webhookPOST
  rw [hparse]
  simp only [Option.getD, hsec, if_neg, hverify]
  simp [hsec, hinv, hinvne, htype, htne, hst, horder]

theorem getOrderByBtcpayInvoiceId_update (invId oid : String) (st : OrderStatus)
    (orders : List BtcpayOrder) :
    getOrderByBtcpayInvoiceId invId (updateBtcpayOrderStatus oid st orders) =
      (getOrderByBtcpayInvoiceId invId orders).map
        (fun o => if o.id == oid then { o with status := st } else o) := by
  unfold getOrderByBtcpayInvoiceId updateBtcpayOrderStatus
  rw [List.find?_map]
  have hfun : ((fun o : BtcpayOrder => o.btcpayInvoiceId == some invId) ∘
      (fun o : BtcpayOrder => if o.id == oid then { o with status := st } else o)) =
      (fun o : BtcpayOrder => o.btcpayInvoiceId == some invId) := by
    funext o
    by_cases h : (o.id == oid) = true <;> simp [Function.comp, h]
  rw [hfun]

/-- C2.  A webhook request whose `BTCPAY-SIG` header differs from
`"sha256=" ++ hmac(secret, rawBody)` — including a well-formed digest
computed over a different body — is answered 401 with no database access
and without reaching `JSON.parse`; with the secret unconfigured the answer
is 500, likewise before any parsing or database access. -/
theorem c2_webhook_auth :
    (∀ (hmacHex : String → String → String)
        (parseJson : String → Option WebhookPayload)
        (s rawBody : String) (sig : Option String) (orders : List BtcpayOrder),
      s ≠ "" →
      sig ≠ some ("sha256=" ++ hmacHex s rawBody) →
      webhookPOST hmacHex parseJson (some s) rawBody sig orders =
        ⟨401, orders, false, false⟩) ∧
    (∀ (hmacHex : String → String → String)
        (parseJson : String → Option WebhookPayload)
        (secret : Option String) (rawBody : String) (sig : Option String)
        (orders : List BtcpayOrder),
      secret.getD "" = "" →
      webhookPOST hmacHex parseJson secret rawBody sig orders =
        ⟨500, orders, false, false⟩) := by
  constructor
  · intro hmacHex parseJson s rawBody sig orders hs hneq
    unfold webhookPOST
    rw [verifyWebhookSignature_eq_false hmacHex s rawBody sig hneq]
    simp [hs]
  · intro hmacHex parseJson secret rawBody sig orders hnone
    unfold webhookPOST
    simp [hnone]

/-- C2 witness: a tampered-body digest is rejected 401; a missing secret
yields 500. -/
theorem c2_webhook_auth_witness :
    webhookPOST (fun _ _ => "00") (fun _ => none) (some "secret") "body"
        (some "sha256=ff") [] = ⟨401, [], false, false⟩ ∧
    webhookPOST (fun _ _ => "00") (fun _ => none) none "body" none [] =
      ⟨500, [], false, false⟩ :=
  ⟨c2_webhook_auth.1 (fun _ _ => "00") (fun _ => none) "secret" "body"
      (some "sha256=ff") [] (by decide) (by decide),
   c2_webhook_auth.2 (fun _ _ => "00") (fun _ => none) none "body" none [] rfl⟩

/-- C5 (counterexample).  The claim asserts that every event type outside
the fixed table is acknowledged 200 with no state change, but the table is
a plain object literal and the bracket lookup inherits truthy
`Object.prototype` members: for event type `"constructor"` the `!status`
guard does not fire and the handler proceeds to the database — 500 (failed
enum write) when an order matches the invoice id, 404 when none does —
never the claimed 200-no-op. -/
theorem c5_counterexample :
    EVENT_TO_STATUS "constructor" = some .inherited ∧
    webhookPOST (fun _ _ => "d") (fun _ => some ⟨some "constructor", some "inv1"⟩)
        (some "sec") "raw" (some "sha256=d")
        [⟨"o1", "p1", "Tee", 1, none, "10.00", "USD", .pending, some "inv1"⟩] =
      ⟨500, [⟨"o1", "p1", "Tee", 1, none, "10.00", "USD", .pending, some "inv1"⟩],
        true, true⟩ ∧
    webhookPOST (fun _ _ => "d") (fun _ => some ⟨some "constructor", some "inv1"⟩)
        (some "sec") "raw" (some "sha256=d") [] = ⟨404, [], true, true⟩ := by
  exact ⟨rfl, by decide, by decide⟩

/-- C5 (amended).  The event table's own entries map exactly
`InvoiceProcessing→processing, InvoiceSettled→settled, InvoiceExpired→expired,
InvoiceInvalid→invalid`, and an authenticated delivery with a mapped event
type sets the matched order's status to exactly the mapped value (and
changes nothing else).  An authenticated delivery whose event type is
outside the table AND not an `Object.prototype` property name is answered
200 with no database access and no state change.  For a prototype-key event
type the lookup is truthy, so the handler proceeds to the database: 404
when no order matches the invoice id, 500 (rejected enum write, no state
change) when one does. -/
theorem c5_event_mapping :
    EVENT_TO_STATUS "InvoiceProcessing" = some (.own .processing) ∧
    EVENT_TO_STATUS "InvoiceSettled" = some (.own .settled) ∧
    EVENT_TO_STATUS "InvoiceExpired" = some (.own .expired) ∧
    EVENT_TO_STATUS "InvoiceInvalid" = some (.own .invalid) ∧
    (∀ (hmacHex : String → String → String)
        (parseJson : String → Option WebhookPayload)
        (s rawBody : String) (orders : List BtcpayOrder)
        (payload : WebhookPayload) (t invId : String) (st : OrderStatus)
        (order : BtcpayOrder),
      s ≠ "" →
      parseJson rawBody = some payload →
      payload.eventType = some t →
      EVENT_TO_STATUS t = some (.own st) →
      payload.invoiceId = some invId →
      invId ≠ "" →
      getOrderByBtcpayInvoiceId invId orders = some order →
      webhookPOST hmacHex parseJson (some s) rawBody
          (some ("sha256=" ++ hmacHex s rawBody)) orders =
        ⟨200, orders.map (fun o => if o.id == order.id then { o with status := st } else o),
          true, true⟩) ∧
    (∀ (hmacHex : String → String → String)
        (parseJson : String → Option WebhookPayload)
        (s rawBody : String) (orders : List BtcpayOrder)
        (payload : WebhookPayload) (t invId : String),
      s ≠ "" →
      parseJson rawBody = some payload →
      payload.eventType = some t →
      EVENT_TO_STATUS t = none →
      payload.invoiceId = some invId →
      invId ≠ "" →
      webhookPOST hmacHex parseJson (some s) rawBody
          (some ("sha256=" ++ hmacHex s rawBody)) orders =
        ⟨200, orders, true, false⟩) ∧
    (∀ (hmacHex : String → String → String)
        (parseJson : String → Option WebhookPayload)
        (s rawBody : String) (orders : List BtcpayOrder)
        (payload : WebhookPayload) (t invId : String) (order : BtcpayOrder),
      s ≠ "" →
      parseJson rawBody = some payload →
      payload.eventType = some t →
      EVENT_TO_STATUS t = some .inherited →
      payload.invoiceId = some invId →
      invId ≠ "" →
      getOrderByBtcpayInvoiceId invId orders = some order →
      webhookPOST hmacHex parseJson (some s) rawBody
          (some ("sha256=" ++ hmacHex s rawBody)) orders =
        ⟨500, orders, true, true⟩) ∧
    (∀ (hmacHex : String → String → String)
        (parseJson : String → Option WebhookPayload)
        (s rawBody : String) (orders : List BtcpayOrder)
        (payload : WebhookPayload) (t invId : String),
      s ≠ "" →
      parseJson rawBody = some payload →
      payload.eventType = some t →
      EVENT_TO_STATUS t = some .inherited →
      payload.invoiceId = some invId →
      invId ≠ "" →
      getOrderByBtcpayInvoiceId invId orders = none →
      webhookPOST hmacHex parseJson (some s) rawBody
          (some ("sha256=" ++ hmacHex s rawBody)) orders =
        ⟨404, orders, true, true⟩) := by
  refine ⟨rfl, rfl, rfl, rfl, ?_, ?_, ?_, ?_⟩
  · intro hmacHex parseJson s rawBody orders payload t invId st order
      hsec hparse htype hst hinv hinvne horder
    exact webhookPOST_known_event hmacHex parseJson s rawBody orders payload
      t invId st order hsec hparse htype hst hinv hinvne horder
  · intro hmacHex parseJson s rawBody orders payload t invId
      hsec hparse htype hst hinv hinvne
    have hverify : verifyWebhookSignature hmacHex (some s) rawBody
        (some ("sha256=" ++ hmacHex s rawBody)) = true := by
      unfold verifyWebhookSignature
      simp [hsec]
    unfold webhookPOST
    rw [hparse]
    by_cases ht : t = ""
    · simp [hsec, hverify, hinv, hinvne, htype, ht]
    · simp [hsec, hverify, hinv, hinvne, htype, ht, hst]
  · intro hmacHex parseJson s rawBody orders payload t invId order
      hsec hparse htype hst hinv hinvne horder
    have htne : t ≠ "" := by
      intro h
      rw [h] at hst
      exact Option.noConfusion hst
    have hverify : verifyWebhookSignature hmacHex (some s) rawBody
        (some ("sha256=" ++ hmacHex s rawBody)) = true := by
      unfold verifyWebhookSignature
      simp [hsec]
    unfold webhookPOST
    rw [hparse]
    simp [hsec, hverify, hinv, hinvne, htype, htne, hst, horder]
  · intro hmacHex parseJson s rawBody orders payload t invId
      hsec hparse htype hst hinv hinvne horder
    have htne : t ≠ "" := by
      intro h
      rw [h] at hst
      exact Option.noConfusion hst
    have hverify : verifyWebhookSignature hmacHex (some s) rawBody
        (some ("sha256=" ++ hmacHex s rawBody)) = true := by
      unfold verifyWebhookSignature
      simp [hsec]
    unfold webhookPOST
    rw [hparse]
    simp [hsec, hverify, hinv, hinvne, htype, htne, hst, horder]

/-- C5 witness: a settled event updates the matched order; an
`InvoiceCreated` event is acknowledged without effect; a `"toString"` event
with a matching order reaches the database and fails with 500. -/
theorem c5_event_mapping_witness :
    webhookPOST (fun _ _ => "d") (fun _ => some ⟨some "InvoiceSettled", some "inv1"⟩)
        (some "sec") "raw" (some ("sha256=d"))
        [⟨"o1", "p1", "Tee", 1, none, "10.00", "USD", .pending, some "inv1"⟩] =
      ⟨200, [⟨"o1", "p1", "Tee", 1, none, "10.00", "USD", .settled, some "inv1"⟩],
        true, true⟩ ∧
    webhookPOST (fun _ _ => "d") (fun _ => some ⟨some "InvoiceCreated", some "inv1"⟩)
        (some "sec") "raw" (some ("sha256=d"))
        [⟨"o1", "p1", "Tee", 1, none, "10.00", "USD", .pending, some "inv1"⟩] =
      ⟨200, [⟨"o1", "p1", "Tee", 1, none, "10.00", "USD", .pending, some "inv1"⟩],
        true, false⟩ ∧
    webhookPOST (fun _ _ => "d") (fun _ => some ⟨some "toString", some "inv1"⟩)
        (some "sec") "raw" (some ("sha256=d"))
        [⟨"o1", "p1", "Tee", 1, none, "10.00", "USD", .pending, some "inv1"⟩] =
      ⟨500, [⟨"o1", "p1", "Tee", 1, none, "10.00", "USD", .pending, some "inv1"⟩],
        true, true⟩ := by
  refine ⟨?_, ?_, ?_⟩
  · have h := c5_event_mapping.2.2.2.2.1 (fun _ _ => "d")
      (fun _ => some ⟨some "InvoiceSettled", some "inv1"⟩) "sec" "raw"
      [⟨"o1", "p1", "Tee", 1, none, "10.00", "USD", .pending, some "inv1"⟩]
      ⟨some "InvoiceSettled", some "inv1"⟩ "InvoiceSettled" "inv1" .settled
      ⟨"o1", "p1", "Tee", 1, none, "10.00", "USD", .pending, some "inv1"⟩
      (by decide) rfl rfl rfl rfl (by decide) (by decide)
    exact h.trans (by decide)
  · have h := c5_event_mapping.2.2.2.2.2.1 (fun _ _ => "d")
      (fun _ => some ⟨some "InvoiceCreated", some "inv1"⟩) "sec" "raw"
      [⟨"o1", "p1", "Tee", 1, none, "10.00", "USD", .pending, some "inv1"⟩]
      ⟨some "InvoiceCreated", some "inv1"⟩ "InvoiceCreated" "inv1"
      (by decide) rfl rfl rfl rfl (by decide)
    exact h
  · have h := c5_event_mapping.2.2.2.2.2.2.1 (fun _ _ => "d")
      (fun _ => some ⟨some "toString", some "inv1"⟩) "sec" "raw"
      [⟨"o1", "p1", "Tee", 1, none, "10.00", "USD", .pending, some "inv1"⟩]
      ⟨some "toString", some "inv1"⟩ "toString" "inv1"
      ⟨"o1", "p1", "Tee", 1, none, "10.00", "USD", .pending, some "inv1"⟩
      (by decide) rfl rfl rfl rfl (by decide) (by decide)
    exact h

/-- C8.  Delivering the same authenticated `InvoiceSettled` event twice
leaves the matched order's status `settled` after both deliveries: the
unconditional update is idempotent in outcome. -/
theorem c8_settled_idempotent (hmacHex : String → String → String)
    (parseJson : String → Option WebhookPayload) (s rawBody : String)
    (orders : List BtcpayOrder) (invId : String) (order : BtcpayOrder)
    (hsec : s ≠ "")
    (hparse : parseJson rawBody = some ⟨some "InvoiceSettled", some invId⟩)
    (hinvne : invId ≠ "")
    (horder : getOrderByBtcpayInvoiceId invId orders = some order) :
    (webhookPOST hmacHex parseJson (some s) rawBody
        (some ("sha256=" ++ hmacHex s rawBody)) orders).status = 200 ∧
    (getOrderByBtcpayInvoiceId invId
        (webhookPOST hmacHex parseJson (some s) rawBody
          (some ("sha256=" ++ hmacHex s rawBody)) orders).orders).map
      (fun o => o.status) = some .settled ∧
    (webhookPOST hmacHex parseJson (some s) rawBody
        (some ("sha256=" ++ hmacHex s rawBody))
        (webhookPOST hmacHex parseJson (some s) rawBody
          (some ("sha256=" ++ hmacHex s rawBody)) orders).orders).status = 200 ∧
    (getOrderByBtcpayInvoiceId invId
        (webhookPOST hmacHex parseJson (some s) rawBody
          (some ("sha256=" ++ hmacHex s rawBody))
          (webhookPOST hmacHex parseJson (some s) rawBody
            (some ("sha256=" ++ hmacHex s rawBody)) orders).orders).orders).map
      (fun o => o.status) = some .settled := by
  have h1 := webhookPOST_known_event hmacHex parseJson s rawBody orders
    ⟨some "InvoiceSettled", some invId⟩ "InvoiceSettled" invId .settled order
    hsec hparse rfl rfl rfl hinvne horder
  have hlook1 : getOrderByBtcpayInvoiceId invId
      (updateBtcpayOrderStatus order.id .settled orders) =
      some { order with status := .settled } := by
    rw [getOrderByBtcpayInvoiceId_update, horder]
    simp
  have h2 := webhookPOST_known_event hmacHex parseJson s rawBody
    (updateBtcpayOrderStatus order.id .settled orders)
    ⟨some "InvoiceSettled", some invId⟩ "InvoiceSettled" invId .settled
    { order with status := .settled }
    hsec hparse rfl rfl rfl hinvne hlook1
  have hlook2 : getOrderByBtcpayInvoiceId invId
      (updateBtcpayOrderStatus order.id .settled
        (updateBtcpayOrderStatus order.id .settled orders)) =
      some { order with status := .settled } := by
    rw [getOrderByBtcpayInvoiceId_update, hlook1]
    simp
  refine ⟨by rw [h1], ?_, ?_, ?_⟩
  · rw [h1]
    dsimp only
    rw [hlook1]
    rfl
  · rw [h1]
    dsimp only
    rw [h2]
  · rw [h1]
    dsimp only
    rw [h2]
    dsimp only
    rw [hlook2]
    rfl

/-- C8 witness: two concrete settled deliveries keep the order settled. -/
theorem c8_settled_idempotent_witness :
    (getOrderByBtcpayInvoiceId "inv1"
        (webhookPOST (fun _ _ => "d")
          (fun _ => some ⟨some "InvoiceSettled", some "inv1"⟩) (some "sec") "raw"
          (some "sha256=d")
          (webhookPOST (fun _ _ => "d")
            (fun _ => some ⟨some "InvoiceSettled", some "inv1"⟩) (some "sec") "raw"
            (some "sha256=d")
            [⟨"o1", "p1", "Tee", 1, none, "10.00", "USD", .pending,
              some "inv1"⟩]).orders).orders).map
      (fun o => o.status) = some .settled :=
  (c8_settled_idempotent (fun _ _ => "d")
    (fun _ => some ⟨some "InvoiceSettled", some "inv1"⟩) "sec" "raw"
    [⟨"o1", "p1", "Tee", 1, none, "10.00", "USD", .pending, some "inv1"⟩]
    "inv1" ⟨"o1", "p1", "Tee", 1, none, "10.00", "USD", .pending, some "inv1"⟩
    (by decide) rfl (by decide) (by decide)).2.2.2

/-! ## Admin auth (`src/lib/admin-auth.ts`) -/

/-- Cookie name from `admin-auth.ts`. -/
def COOKIE_NAME : String :=
  "admin_session"

/-- Session time-to-live, `24 * 60 * 60 * 1000` milliseconds. -/
def SESSION_MAX_AGE_MS : Int :=
  24 * 60 * 60 * 1000

/-- Model of the first match of the regex `admin_session=([^;]+)` in a
cookie header: scan for an occurrence of `admin_session=` followed by at
least one non-`;` character, and capture the run of non-`;` characters
(the regex engine backtracks past occurrences with an empty capture). -/
def findCookieMatch : List Char → Option (List Char)
  | [] => none
  | c :: rest =>
    if (COOKIE_NAME ++ "=").toList.isPrefixOf (c :: rest) then
      let captured := ((c :: rest).drop (COOKIE_NAME ++ "=").length).takeWhile
        (fun ch => ch != ';')
      if captured.isEmpty then findCookieMatch rest else some captured
    else findCookieMatch rest

/-- Model of `String.prototype.split('.')`. -/
def splitOnDot : List Char → List (List Char)
  | [] => [[]]
  | c :: rest =>
    if c = '.' then [] :: splitOnDot rest
    else
      match splitOnDot rest with
      | [] => [[c]]
      | g :: gs => (c :: g) :: gs

/-- Model of `verifySessionCookie(cookieHeader)`.  The HMAC-SHA256-base64url
signer over the server secret is abstracted as `signFn`; `base64url`
decoding to bytes (`Buffer.from(s, 'base64url')`) is abstracted as
`b64urlDecode`; the current time `Date.now()` is the parameter `now`.
A `NaN` timestamp passes the age check (both JavaScript comparisons are
false on `NaN`), exactly as in the source.  `timingSafeEqual` throws on
buffers of different lengths (caught, yielding `false`) and otherwise
decides byte-list equality. -/
def verifySessionCookie (signFn : String → String)
    (b64urlDecode : String → List Nat) (now : Int)
    (cookieHeader : Option String) : Bool :=
  match cookieHeader with
  | none => false
  | some header =>
    match findCookieMatch header.toList with
    | none => false
    | some rawChars =>
      let parts := splitOnDot rawChars
      let timestamp : String := ⟨parts.getD 0 []⟩
      let signature : String := ⟨parts.getD 1 []⟩
      if timestamp = "" ∨ signature = "" then false
      else
        let agePasses : Bool :=
          match jsParseInt timestamp with
          | some ts => if now - ts < 0 ∨ now - ts > SESSION_MAX_AGE_MS then false else true
          | none => true
        if agePasses = false then false
        else
          let expected := signFn timestamp
          let sb := b64urlDecode signature
          let eb := b64urlDecode expected
          if sb.length ≠ eb.length then false
          else sb == eb

/-- Model of `createSessionCookie()`: value `timestamp.signature`, minted at
time `t` (`Date.now()`, a natural number of milliseconds). -/
def createSessionCookie (signFn : String → String) (t : Nat) : String :=
  natToString t ++ "." ++ signFn (natToString t)

/-- Model of `parseBasicAuth(authHeader)`.  Node's forgiving base64 decoding
followed by UTF-8 `toString` is abstracted as `b64decodeUtf8` (it never
throws). -/
def parseBasicAuth (b64decodeUtf8 : String → String)
    (authHeader : Option String) : Option (String × String) :=
  match authHeader with
  | none => none
  | some h =>
    if "Basic ".isPrefixOf h then
      let decoded := b64decodeUtf8 (h.drop 6)
      let cs := decoded.toList
      if cs.contains ':' then
        some (⟨cs.takeWhile (fun c => c != ':')⟩,
          ⟨(cs.dropWhile (fun c => c != ':')).drop 1⟩)
      else none
    else none

/-- Outcome of `isAdminAuthenticated`: `false`, `true`, or `{setCookie:true}`. -/
inductive AdminAuth where
  | denied
  | allowed
  | allowedSetCookie
deriving Repr, DecidableEq

/-- Model of `isAdminAuthenticated(request)`.  `adminPassword` is
`process.env.ADMIN_PASSWORD` (`none` when unset); the password comparison
mirrors the source's byte-length guard plus `timingSafeEqual` over UTF-8
buffers, which together decide string equality. -/
def isAdminAuthenticated (adminPassword : Option String)
    (signFn : String → String) (b64urlDecode : String → List Nat)
    (b64decodeUtf8 : String → String) (now : Int)
    (cookieHeader authHeader : Option String) : AdminAuth :=
  if jsTrim (adminPassword.getD "") = "" then .allowed
  else if verifySessionCookie signFn b64urlDecode now cookieHeader then .allowed
  else
    match parseBasicAuth b64decodeUtf8 authHeader with
    | none => .denied
    | some (_, pass) =>
      let expected := adminPassword.getD ""
      if utf8Len pass ≠ utf8Len expected then .denied
      else if pass == expected then .allowedSetCookie
      else .denied

/-! ## Admin product PATCH (`PATCH /api/admin/product/[id]`) -/

/-- Row of the `products` table (fields the PATCH handler touches;
timestamps omitted). -/
structure ProductRow where
  id : String
  name : String
  slug : String
  price : Option String
  regularPrice : Option String
  salePrice : Option String
  onSale : Bool
  stockStatus : String
  stockQuantity : Option Int
deriving Repr, DecidableEq

/-- Row of the `product_size_inventory` table.  `crypto.randomUUID()` is
modelled by a fresh numeric id drawn from a counter. -/
structure SizeInvRow where
  id : Nat
  productId : String
  size : String
  quantity : Int
deriving Repr, DecidableEq

/-- Database state seen by the admin PATCH handler. -/
structure DbState where
  products : List ProductRow
  sizeInv : List SizeInvRow
  nextId : Nat
deriving Repr, DecidableEq

/-- Extraction of `name`/`slug`: `typeof v === 'string' ? v.trim() : undefined`. -/
def extractStringField (v : Option Json) : Option String :=
  match v with
  | some (.str s) => some (jsTrim s)
  | _ => none

/-- Extraction of the price-like fields:
`body.f != null ? (typeof body.f === 'string' ? body.f.trim() || null : null) : undefined`.
Outer `none` = field left untouched (`undefined`), `some none` = column set
to SQL `NULL`, `some (some s)` = column set to the trimmed string. -/
def extractPriceField (v : Option Json) : Option (Option String) :=
  match v with
  | none => none
  | some .null => none
  | some (.str s) => if jsTrim s = "" then some none else some (some (jsTrim s))
  | some _ => some none

/-- Extraction of `onSale`: `typeof v === 'boolean' ? v : undefined`. -/
def extractBoolField (v : Option Json) : Option Bool :=
  match v with
  | some (.bool b) => some b
  | _ => none

/-- Stock status whitelist `STOCK_STATUSES`. -/
def STOCK_STATUSES : List String :=
  ["IN_STOCK", "OUT_OF_STOCK", "ON_BACKORDER"]

/-- Extraction of `stockStatus`: a string member of the whitelist, else
`undefined`. -/
def extractStockStatus (v : Option Json) : Option String :=
  match v with
  | some (.str s) => if STOCK_STATUSES.contains s then some s else none
  | _ => none

/-- JavaScript `Number.isInteger` on a decimal number. -/
def Dec.isInt (d : Dec) : Bool :=
  d.mant % (10 : Int) ^ d.exp == 0

/-- Integer value of a decimal number that `Dec.isInt` accepts. -/
def Dec.toInt (d : Dec) : Int :=
  d.mant / (10 : Int) ^ d.exp

/-- Extraction of `stockQuantity`: `undefined` when the field is absent or
JSON `null`; an integer number is taken as-is, a string goes through
`parseInt` (then `Number.isInteger` rejects `NaN`), anything else becomes
SQL `NULL`. -/
def extractStockQuantity (v : Option Json) : Option (Option Int) :=
  match v with
  | none => none
  | some .null => none
  | some (.num d) => if d.isInt then some (some d.toInt) else some none
  | some (.str s) =>
    match jsParseInt s with
    | some n => some (some n)
    | none => some none
  | some _ => some none

/-- The `updates` record accumulated by the handler (minus `updatedAt`). -/
structure ProductUpdates where
  name : Option String
  slug : Option String
  price : Option (Option String)
  regularPrice : Option (Option String)
  salePrice : Option (Option String)
  onSale : Option Bool
  stockStatus : Option String
  stockQuantity : Option (Option Int)
deriving Repr, DecidableEq

/-- Field extraction block of the PATCH handler. -/
def buildUpdates (b : Json) : ProductUpdates :=
  { name := extractStringField (b.get "name")
    slug := extractStringField (b.get "slug")
    price := extractPriceField (b.get "price")
    regularPrice := extractPriceField (b.get "regularPrice")
    salePrice := extractPriceField (b.get "salePrice")
    onSale := extractBoolField (b.get "onSale")
    stockStatus := extractStockStatus (b.get "stockStatus")
    stockQuantity := extractStockQuantity (b.get "stockQuantity") }

/-- Test for `Object.keys(updates).length === 1` (only `updatedAt` present). -/
def ProductUpdates.isEmpty (u : ProductUpdates) : Bool :=
  u.name.isNone && u.slug.isNone && u.price.isNone && u.regularPrice.isNone &&
    u.salePrice.isNone && u.onSale.isNone && u.stockStatus.isNone &&
    u.stockQuantity.isNone

/-- Application of `db.update(products).set(updates)` to one row. -/
def applyUpdates (u : ProductUpdates) (p : ProductRow) : ProductRow :=
  { p with
    name := u.name.getD p.name
    slug := u.slug.getD p.slug
    price := u.price.getD p.price
    regularPrice := u.regularPrice.getD p.regularPrice
    salePrice := u.salePrice.getD p.salePrice
    onSale := u.onSale.getD p.onSale
    stockStatus := u.stockStatus.getD p.stockStatus
    stockQuantity := u.stockQuantity.getD p.stockQuantity }

/-- One entry of the validated `sizeInventory` payload after the handler's
`map`: trimmed label and `Math.max(0, Math.floor(Number(quantity)))`, where
`none` models a `NaN` quantity (`Math.max(0, NaN)` is `NaN`). -/
structure SizeEntry where
  size : String
  quantity : Option Int
deriving Repr, DecidableEq

/-- Validation of one `sizeInventory` item: an object with a `size` key
holding a string and a `quantity` key. -/
def isValidSizeItem : Json → Bool
  | .obj fields =>
    match fields.lookup "size", fields.lookup "quantity" with
    | some (.str _), some _ => true
    | _, _ => false
  | _ => false

/-- The handler's `map` over a validated item. -/
def mapSizeItem : Json → SizeEntry
  | .obj fields =>
    let sz := match fields.lookup "size" with
      | some (.str s) => s
      | _ => ""
    let q := (fields.lookup "quantity").getD .null
    ⟨jsTrim sz, (jsFloor (jsToNumber q)).map (fun n => max 0 n)⟩
  | _ => ⟨"", none⟩

/-- Extraction of the `sizeInventory` payload: an array whose members all
validate, else `undefined`. -/
def extractSizeInventory (v : Option Json) : Option (List SizeEntry) :=
  match v with
  | some (.arr items) =>
    if items.all isValidSizeItem then some (items.map mapSizeItem) else none
  | _ => none

/-- One upsert step of the handler's `for` loop: look up the row by
`(productId, size)`; update only its quantity when found, insert a fresh
row otherwise.  A `NaN` quantity cannot be written to the integer column
(the database rejects it, the exception is caught and the handler answers
500): modelled as `none`. -/
def upsertSizeEntry (pid : String) (e : SizeEntry) (db : DbState) :
    Option DbState :=
  match e.quantity with
  | none => none
  | some q =>
    match db.sizeInv.find? (fun r => r.productId == pid && r.size == e.size) with
    | some row =>
      some { db with
        sizeInv := db.sizeInv.map
          (fun r => if r.id == row.id then { r with quantity := max 0 q } else r) }
    | none =>
      some { db with
        sizeInv := db.sizeInv ++ [⟨db.nextId, pid, e.size, q⟩]
        nextId := db.nextId + 1 }

/-- The handler's upsert loop; on a failed write the loop stops and the
changes made so far remain (there is no transaction). -/
def upsertAll (pid : String) (entries : List SizeEntry) (db : DbState) :
    Bool × DbState :=
  match entries with
  | [] => (true, db)
  | e :: rest =>
    match upsertSizeEntry pid e db with
    | none => (false, db)
    | some db2 => upsertAll pid rest db2

/-- Result of one admin PATCH request. -/
structure PatchResult where
  status : Nat
  db : DbState
deriving Repr, DecidableEq

/-- Product-field update stage of the PATCH handler:
`db.update(products).set(updates)` when there is at least one recognized
field, `none` when the product row does not exist (the handler's 404). -/
def patchApplyUpdatesStep (id : String) (u : ProductUpdates) (db : DbState) :
    Option DbState :=
  if u.isEmpty then some db
  else if (db.products.find? (fun p => p.id == id)).isSome then
    some { db with
      products := db.products.map
        (fun p => if p.id == id then applyUpdates u p else p) }
  else none

/-- Body of the PATCH handler after the auth / id / JSON gates. -/
def patchCore (id : String) (b : Json) (db : DbState) : PatchResult :=
  let u := buildUpdates b
  let sizeEntries := extractSizeInventory (b.get "sizeInventory")
  if u.isEmpty && sizeEntries.isNone then ⟨400, db⟩
  else
    match patchApplyUpdatesStep id u db with
    | none => ⟨404, db⟩
    | some db1 =>
      match sizeEntries with
      | none => ⟨200, db1⟩
      | some entries =>
        if (db1.products.find? (fun p => p.id == id)).isNone then ⟨404, db1⟩
        else
          match upsertAll id entries db1 with
          | (true, db2) => ⟨200, db2⟩
          | (false, db2) => ⟨500, db2⟩

/-- Model of the admin product `PATCH` handler (the deployed variant with
size-inventory upserts).  `body` is `none` when `request.json()` throws;
`idParam` is the `[id]` route parameter. -/
def adminProductPATCH (adminPassword : Option String)
    (signFn : String → String) (b64urlDecode : String → List Nat)
    (b64decodeUtf8 : String → String) (now : Int)
    (idParam : Option String) (cookieHeader authHeader : Option String)
    (body : Option Json) (db : DbState) : PatchResult :=
  if isAdminAuthenticated adminPassword signFn b64urlDecode b64decodeUtf8 now
      cookieHeader authHeader = .denied then ⟨401, db⟩
  else
    match idParam with
    | none => ⟨400, db⟩
    | some id =>
      if id = "" then ⟨400, db⟩
      else
        match body with
        | none => ⟨400, db⟩
        | some b => patchCore id b db

/-- C3.  With `ADMIN_PASSWORD` unset or blank every request is authenticated
regardless of cookies or Authorization headers; with it set (non-blank), a
request with neither a valid session cookie nor Basic credentials whose
password equals `ADMIN_PASSWORD` is denied, and the admin PATCH endpoint
answers 401 leaving the database untouched. -/
theorem c3_admin_auth :
    (∀ (pw : Option String) (signFn : String → String)
        (b64urlDecode : String → List Nat) (b64decodeUtf8 : String → String)
        (now : Int) (cookieHeader authHeader : Option String),
      jsTrim (pw.getD "") = "" →
      isAdminAuthenticated pw signFn b64urlDecode b64decodeUtf8 now
        cookieHeader authHeader = .allowed) ∧
    (∀ (pw : String) (signFn : String → String)
        (b64urlDecode : String → List Nat) (b64decodeUtf8 : String → String)
        (now : Int) (idParam cookieHeader authHeader : Option String)
        (body : Option Json) (db : DbState),
      jsTrim pw ≠ "" →
      verifySessionCookie signFn b64urlDecode now cookieHeader = false →
      (∀ u pa, parseBasicAuth b64decodeUtf8 authHeader = some (u, pa) → pa ≠ pw) →
      isAdminAuthenticated (some pw) signFn b64urlDecode b64decodeUtf8 now
          cookieHeader authHeader = .denied ∧
      adminProductPATCH (some pw) signFn b64urlDecode b64decodeUtf8 now
          idParam cookieHeader authHeader body db = ⟨401, db⟩) := by
  constructor
  · intro pw signFn b64urlDecode b64decodeUtf8 now cookieHeader authHeader hblank
    unfold isAdminAuthenticated
    simp [hblank]
  · intro pw signFn b64urlDecode b64decodeUtf8 now idParam cookieHeader
      authHeader body db hpw hcookie hbasic
    have hdeny : isAdminAuthenticated (some pw) signFn b64urlDecode b64decodeUtf8
        now cookieHeader authHeader = .denied := by
      unfold isAdminAuthenticated
      rw [if_neg (by simpa using hpw), hcookie]
      simp only [Bool.false_eq_true, if_false]
      cases hpa : parseBasicAuth b64decodeUtf8 authHeader with
      | none => rfl
      | some creds =>
        obtain ⟨u, pa⟩ := creds
        have hne : pa ≠ pw := hbasic u pa hpa
        dsimp only
        have hgd : (some pw).getD "" = pw := rfl
        rw [hgd]
        by_cases hl : utf8Len pa ≠ utf8Len pw
        · rw [if_pos hl]
        · rw [if_neg hl, if_neg (by simp [hne])]
    refine ⟨hdeny, ?_⟩
    unfold adminProductPATCH
    rw [hdeny]
    simp

/-- C3 witness: an unset password authenticates a bare request; a set
password plus a credential-free request yields denial and a 401 PATCH. -/
theorem c3_admin_auth_witness :
    isAdminAuthenticated none (fun _ => "s") (fun _ => []) (fun s => s) 0
        none none = .allowed ∧
    adminProductPATCH (some "hunter2hunter2") (fun _ => "s") (fun _ => [])
        (fun s => s) 0 (some "p1") none none none ⟨[], [], 0⟩ =
      ⟨401, ⟨[], [], 0⟩⟩ :=
  ⟨c3_admin_auth.1 none (fun _ => "s") (fun _ => []) (fun s => s) 0 none none rfl,
   (c3_admin_auth.2 "hunter2hunter2" (fun _ => "s") (fun _ => []) (fun s => s) 0
      (some "p1") none none none ⟨[], [], 0⟩ (by decide) rfl
      (fun u pa h => Option.noConfusion h)).2⟩

theorem isPrefixOf_append (l1 l2 : List Char) : l1.isPrefixOf (l1 ++ l2) = true := by
  induction l1 with
  | nil => simp [List.isPrefixOf]
  | cons c cs ih => simp [List.isPrefixOf, ih]

theorem findCookieMatch_exact (vs : List Char) (hne : vs ≠ [])
    (hsemi : ∀ c ∈ vs, (c != ';') = true) :
    findCookieMatch ((COOKIE_NAME ++ "=").toList ++ vs) = some vs := by
  obtain ⟨c0, rest0, hsplit⟩ : ∃ c0 rest0,
      (COOKIE_NAME ++ "=").toList ++ vs = c0 :: (rest0 ++ vs) ∧
      (COOKIE_NAME ++ "=").toList = c0 :: rest0 := by
    exact ⟨'a', "dmin_session=".toList, rfl, rfl⟩
  obtain ⟨hsplit, hcn⟩ := hsplit
  rw [hsplit, findCookieMatch]
  rw [show c0 :: (rest0 ++ vs) = (COOKIE_NAME ++ "=").toList ++ vs from
    by rw [hcn]; rfl]
  rw [isPrefixOf_append]
  simp only [if_true]
  rw [show (COOKIE_NAME ++ "=").length = ((COOKIE_NAME ++ "=").toList).length from rfl]
  rw [List.drop_left]
  rw [List.takeWhile_eq_self_iff.mpr hsemi]
  rw [if_neg (by simpa using hne)]

theorem splitOnDot_ne_nil (l : List Char) : splitOnDot l ≠ [] := by
  cases l with
  | nil => simp [splitOnDot]
  | cons c rest =>
    rw [splitOnDot]
    by_cases h : c = '.'
    · simp [h]
    · rw [if_neg h]
      cases splitOnDot rest <;> simp

theorem splitOnDot_no_dot (l : List Char) (h : ∀ c ∈ l, c ≠ '.') :
    splitOnDot l = [l] := by
  induction l with
  | nil => rfl
  | cons c rest ih =>
    rw [splitOnDot, if_neg (h c (List.mem_cons_self c rest))]
    rw [ih (fun x hx => h x (List.mem_cons_of_mem c hx))]

theorem splitOnDot_append (a b : List Char) (h : ∀ c ∈ a, c ≠ '.') :
    splitOnDot (a ++ '.' :: b) = a :: splitOnDot b := by
  induction a with
  | nil => simp [splitOnDot]
  | cons c rest ih =>
    rw [List.cons_append, splitOnDot, if_neg (h c (List.mem_cons_self c rest))]
    rw [ih (fun x hx => h x (List.mem_cons_of_mem c hx))]

/-- C9.  A cookie header carrying exactly the value minted by
`createSessionCookie` at time `t` is accepted by `verifySessionCookie` at
time `now` precisely when the cookie's age `now - t` is nonnegative and at
most 24 hours.  The signer is any function producing nonempty digests free
of `.` and `;` (as the base64url HMAC digests of the source are). -/
theorem c9_cookie_roundtrip (signFn : String → String)
    (b64urlDecode : String → List Nat) (t : Nat) (now : Int)
    (hsig : ∀ s, signFn s ≠ "" ∧ ∀ c ∈ (signFn s).toList, c ≠ '.' ∧ c ≠ ';') :
    verifySessionCookie signFn b64urlDecode now
        (some (COOKIE_NAME ++ "=" ++ createSessionCookie signFn t)) =
      decide (0 ≤ now - (t : Int) ∧ now - (t : Int) ≤ SESSION_MAX_AGE_MS) := by
  obtain ⟨hsgne, hsgchars⟩ := hsig (natToString t)
  have hdigits := natToDecimal_digits t
  have htsne : natToString t ≠ "" := by
    intro h
    exact natToDecimal_ne_nil t (congrArg String.toList h)
  have hvs : (COOKIE_NAME ++ "=" ++ createSessionCookie signFn t).toList =
      (COOKIE_NAME ++ "=").toList ++
        ((natToString t).toList ++ '.' :: (signFn (natToString t)).toList) := by
    have h1 : (COOKIE_NAME ++ "=" ++ createSessionCookie signFn t).toList =
        (COOKIE_NAME ++ "=").toList ++
          (((natToString t).toList ++ ['.']) ++ (signFn (natToString t)).toList) := rfl
    rw [h1, List.append_assoc]
    rfl
  have hsemi : ∀ c ∈ (natToString t).toList ++ '.' :: (signFn (natToString t)).toList,
      (c != ';') = true := by
    intro c hc
    rcases List.mem_append.mp hc with h1 | h2
    · simpa using isDigitChar_ne_semicolon (hdigits c h1)
    · rcases List.mem_cons.mp h2 with h3 | h4
      · simp [h3]
      · simpa using (hsgchars c h4).2
  have hfind := findCookieMatch_exact
    ((natToString t).toList ++ '.' :: (signFn (natToString t)).toList)
    (by simp) hsemi
  have hsplit := splitOnDot_append (natToString t).toList
    (signFn (natToString t)).toList
    (fun c hc => isDigitChar_ne_dot (hdigits c hc))
  have hsg : splitOnDot (signFn (natToString t)).toList =
      [(signFn (natToString t)).toList] :=
    splitOnDot_no_dot _ (fun c hc => (hsgchars c hc).1)
  unfold verifySessionCookie
  dsimp only
  rw [hvs, hfind]
  dsimp only
  simp only [hsplit, hsg]
  have hts0 : (⟨(natToString t).toList⟩ : String) = natToString t := rfl
  have hsg0 : (⟨(signFn (natToString t)).toList⟩ : String) = signFn (natToString t) := rfl
  simp only [List.getD_cons_zero, List.getD_cons_succ, hts0, hsg0]
  rw [if_neg (by simp [htsne, hsgne])]
  rw [jsParseInt_natToString]
  dsimp only
  by_cases hage : now - (t : Int) < 0 ∨ now - (t : Int) > SESSION_MAX_AGE_MS
  · rw [if_pos hage]
    rw [if_pos rfl]
    symm
    rw [decide_eq_false_iff_not]
    omega
  · rw [if_neg hage]
    rw [if_neg (by simp)]
    rw [if_neg (by simp)]
    have hself : (b64urlDecode (signFn (natToString t)) ==
        b64urlDecode (signFn (natToString t))) = true := by simp
    rw [hself]
    symm
    rw [decide_eq_true_iff]
    omega

/-- C9 witness: a concrete cookie minted at time 1000 verifies at time 2000
and is rejected at a time past the 24-hour window. -/
theorem c9_cookie_roundtrip_witness :
    verifySessionCookie (fun _ => "SIG") (fun s => s.toList.map Char.toNat) 2000
        (some (COOKIE_NAME ++ "=" ++ createSessionCookie (fun _ => "SIG") 1000)) =
      true ∧
    verifySessionCookie (fun _ => "SIG") (fun s => s.toList.map Char.toNat) 99400001000
        (some (COOKIE_NAME ++ "=" ++ createSessionCookie (fun _ => "SIG") 1000)) =
      false := by
  have hs : ∀ s : String, ("SIG" : String) ≠ "" ∧
      ∀ c ∈ ("SIG" : String).toList, c ≠ '.' ∧ c ≠ ';' := by
    intro s
    refine ⟨by decide, ?_⟩
    intro c hc
    have hcase : c = 'S' ∨ c = 'I' ∨ c = 'G' := by simpa using hc
    rcases hcase with h | h | h <;> subst h <;> exact ⟨by decide, by decide⟩
  constructor
  · have h := c9_cookie_roundtrip (fun _ => "SIG") (fun s => s.toList.map Char.toNat)
      1000 2000 hs
    exact h.trans (by decide)
  · have h := c9_cookie_roundtrip (fun _ => "SIG") (fun s => s.toList.map Char.toNat)
      1000 99400001000 hs
    exact h.trans (by decide)

/-- Uniqueness invariant of `product_size_inventory`: no two rows share
`(productId, size)` (the schema's unique constraint). -/
def sizeKeysUnique (rows : List SizeInvRow) : Prop :=
  (rows.map (fun r => (r.productId, r.size))).Nodup

theorem upsertSizeEntry_preserves_unique (pid : String) (e : SizeEntry)
    (db db2 : DbState) (hu : sizeKeysUnique db.sizeInv)
    (hstep : upsertSizeEntry pid e db = some db2) :
    sizeKeysUnique db2.sizeInv := by
  unfold upsertSizeEntry at hstep
  cases hq : e.quantity with
  | none => rw [hq] at hstep; exact Option.noConfusion hstep
  | some q =>
    rw [hq] at hstep
    cases hfind : db.sizeInv.find? (fun r => r.productId == pid && r.size == e.size) with
    | some row =>
      rw [hfind] at hstep
      obtain rfl := Option.some.inj hstep
      unfold sizeKeysUnique
      dsimp only
      rw [List.map_map]
      have hkey : ((fun r : SizeInvRow => (r.productId, r.size)) ∘
          (fun r => if r.id == row.id then { r with quantity := max 0 q } else r)) =
          (fun r : SizeInvRow => (r.productId, r.size)) := by
        funext r
        by_cases h : (r.id == row.id) = true <;> simp [Function.comp, h]
      rw [hkey]
      exact hu
    | none =>
      rw [hfind] at hstep
      obtain rfl := Option.some.inj hstep
      unfold sizeKeysUnique
      dsimp only
      rw [List.map_append]
      rw [List.nodup_append]
      refine ⟨hu, by simp, ?_⟩
      intro k hk hk2
      simp only [List.map_cons, List.map_nil, List.mem_singleton] at hk2
      subst hk2
      obtain ⟨r, hr, hrk⟩ := List.mem_map.mp hk
      have := List.find?_eq_none.mp hfind r hr
      have hpid : r.productId = pid := congrArg Prod.fst hrk
      have hsz : r.size = e.size := congrArg Prod.snd hrk
      simp [hpid, hsz] at this

theorem upsertAll_preserves_unique (pid : String) (entries : List SizeEntry)
    (db : DbState) (hu : sizeKeysUnique db.sizeInv) :
    sizeKeysUnique (upsertAll pid entries db).2.sizeInv := by
  induction entries generalizing db with
  | nil => exact hu
  | cons e rest ih =>
    rw [upsertAll]
    cases hstep : upsertSizeEntry pid e db with
    | none => exact hu
    | some db2 =>
      exact ih db2 (upsertSizeEntry_preserves_unique pid e db db2 hu hstep)

theorem patchApplyUpdatesStep_sizeInv (id : String) (u : ProductUpdates)
    (db db1 : DbState) (h : patchApplyUpdatesStep id u db = some db1) :
    db1.sizeInv = db.sizeInv := by
  unfold patchApplyUpdatesStep at h
  split at h
  · obtain rfl := Option.some.inj h
    rfl
  · split at h
    · obtain rfl := Option.some.inj h
      rfl
    · exact Option.noConfusion h

theorem patchCore_preserves_unique (id : String) (b : Json) (db : DbState)
    (hu : sizeKeysUnique db.sizeInv) :
    sizeKeysUnique (patchCore id b db).db.sizeInv := by
  unfold patchCore
  by_cases h0 : ((buildUpdates b).isEmpty &&
      (extractSizeInventory (b.get "sizeInventory")).isNone) = true
  · rw [if_pos h0]
    exact hu
  · rw [if_neg h0]
    cases h1 : patchApplyUpdatesStep id (buildUpdates b) db with
    | none => exact hu
    | some db1 =>
      have hdb1 : sizeKeysUnique db1.sizeInv := by
        rw [patchApplyUpdatesStep_sizeInv id (buildUpdates b) db db1 h1]
        exact hu
      cases h2 : extractSizeInventory (b.get "sizeInventory") with
      | none => exact hdb1
      | some entries =>
        dsimp only
        by_cases h3 : (db1.products.find? (fun p => p.id == id)).isNone = true
        · rw [if_pos h3]
          exact hdb1
        · rw [if_neg h3]
          have hx := upsertAll_preserves_unique id entries db1 hdb1
          cases h4 : upsertAll id entries db1 with
          | mk ok db2 =>
            rw [h4] at hx
            cases ok <;> exact hx

theorem adminProductPATCH_preserves_unique (adminPassword : Option String)
    (signFn : String → String) (b64urlDecode : String → List Nat)
    (b64decodeUtf8 : String → String) (now : Int)
    (idParam cookieHeader authHeader : Option String)
    (body : Option Json) (db : DbState) (hu : sizeKeysUnique db.sizeInv) :
    sizeKeysUnique (adminProductPATCH adminPassword signFn b64urlDecode
      b64decodeUtf8 now idParam cookieHeader authHeader body db).db.sizeInv := by
  unfold adminProductPATCH
  split
  · exact hu
  · split
    · exact hu
    · split
      · exact hu
      · split
        · exact hu
        · exact patchCore_preserves_unique _ _ db hu

/-- Inputs of one admin PATCH request, for iterating request sequences. -/
structure PatchReq where
  adminPassword : Option String
  signFn : String → String
  b64urlDecode : String → List Nat
  b64decodeUtf8 : String → String
  now : Int
  idParam : Option String
  cookieHeader : Option String
  authHeader : Option String
  body : Option Json

/-- Database state after a sequence of admin PATCH requests. -/
def applyPatches (reqs : List PatchReq) (db : DbState) : DbState :=
  reqs.foldl
    (fun d r => (adminProductPATCH r.adminPassword r.signFn r.b64urlDecode
      r.b64decodeUtf8 r.now r.idParam r.cookieHeader r.authHeader r.body d).db)
    db

/-- C6.  Size-inventory entries are upserted keyed by `(productId, size)`:
an existing row has only its quantity overwritten, a missing one is
inserted; a numeric submitted quantity is stored as
`max 0 (floor (Number q))`; and no sequence of PATCH requests ever breaks
the `(productId, size)` uniqueness invariant.  Patching `{size:"M",
quantity:5}` and then `{size:"M", quantity:0}` on a fresh product leaves
exactly one "M" row, with quantity 0. -/
theorem c6_size_upsert :
    (∀ (reqs : List PatchReq) (db : DbState),
      sizeKeysUnique db.sizeInv → sizeKeysUnique (applyPatches reqs db).sizeInv) ∧
    (∀ (pid : String) (e : SizeEntry) (q : Int) (db : DbState) (row : SizeInvRow),
      e.quantity = some q →
      db.sizeInv.find? (fun r => r.productId == pid && r.size == e.size) = some row →
      upsertSizeEntry pid e db = some { db with
        sizeInv := db.sizeInv.map
          (fun r => if r.id == row.id then { r with quantity := max 0 q } else r) }) ∧
    (∀ (pid : String) (e : SizeEntry) (q : Int) (db : DbState),
      e.quantity = some q →
      db.sizeInv.find? (fun r => r.productId == pid && r.size == e.size) = none →
      upsertSizeEntry pid e db = some { db with
        sizeInv := db.sizeInv ++ [⟨db.nextId, pid, e.size, q⟩]
        nextId := db.nextId + 1 }) ∧
    (∀ (fields : List (String × Json)) (s : String) (d : Dec),
      fields.lookup "size" = some (.str s) →
      fields.lookup "quantity" = some (.num d) →
      mapSizeItem (.obj fields) = ⟨jsTrim s, some (max 0 d.floor)⟩) ∧
    (let db0 : DbState :=
      ⟨[⟨"p1", "Tee", "tee", some "10.00", none, none, false, "IN_STOCK", none⟩], [], 0⟩
     let patchM : Dec → Option Json := fun q => some (.obj
       [("sizeInventory", .arr [.obj [("size", .str "M"), ("quantity", .num q)]])])
     let r1 := adminProductPATCH none (fun _ => "s") (fun _ => []) (fun s => s) 0
       (some "p1") none none (patchM ⟨5, 0⟩) db0
     let r2 := adminProductPATCH none (fun _ => "s") (fun _ => []) (fun s => s) 0
       (some "p1") none none (patchM ⟨0, 0⟩) r1.db
     r1.status = 200 ∧ r1.db.sizeInv = [⟨0, "p1", "M", 5⟩] ∧
       r2.status = 200 ∧ r2.db.sizeInv = [⟨0, "p1", "M", 0⟩]) := by
  refine ⟨?_, ?_, ?_, ?_, by decide⟩
  · intro reqs
    induction reqs with
    | nil => intro db h; exact h
    | cons r rest ih =>
      intro db h
      exact ih _ (adminProductPATCH_preserves_unique r.adminPassword r.signFn
        r.b64urlDecode r.b64decodeUtf8 r.now r.idParam r.cookieHeader
        r.authHeader r.body db h)
  · intro pid e q db row hq hfind
    unfold upsertSizeEntry
    rw [hq, hfind]
  · intro pid e q db hq hfind
    unfold upsertSizeEntry
    rw [hq, hfind]
  · intro fields s d hs hqf
    unfold mapSizeItem
    dsimp only
    rw [hs, hqf]
    rfl

/-- C6 witness: one concrete PATCH sequence preserves key uniqueness. -/
theorem c6_size_upsert_witness :
    sizeKeysUnique (applyPatches
      [⟨none, fun _ => "s", fun _ => [], fun s => s, 0, some "p1", none, none,
        some (.obj [("sizeInventory",
          .arr [.obj [("size", .str "M"), ("quantity", .num ⟨5, 0⟩)]])])⟩]
      ⟨[⟨"p1", "Tee", "tee", some "10.00", none, none, false, "IN_STOCK", none⟩],
        [], 0⟩).sizeInv :=
  c6_size_upsert.1
    [⟨none, fun _ => "s", fun _ => [], fun s => s, 0, some "p1", none, none,
      some (.obj [("sizeInventory",
        .arr [.obj [("size", .str "M"), ("quantity", .num ⟨5, 0⟩)]])])⟩]
    ⟨[⟨"p1", "Tee", "tee", some "10.00", none, none, false, "IN_STOCK", none⟩],
      [], 0⟩
    (by simp [sizeKeysUnique])

/-- C10 (counterexample).  The claim quantifies over every non-string price
value; JSON `null` is such a value, yet `body.price != null` skips it: a
PATCH whose body is exactly `{"price": null}` is rejected 400 ("No valid
fields to update") and clears nothing. -/
theorem c10_counterexample :
    extractPriceField (some .null) = none ∧
    adminProductPATCH none (fun _ => "s") (fun _ => []) (fun s => s) 0
        (some "p1") none none (some (.obj [("price", .null)]))
        ⟨[⟨"p1", "Tee", "tee", some "10.00", none, none, false, "IN_STOCK", none⟩],
          [], 0⟩ =
      ⟨400, ⟨[⟨"p1", "Tee", "tee", some "10.00", none, none, false, "IN_STOCK",
        none⟩], [], 0⟩⟩ := by
  exact ⟨rfl, by decide⟩

/-- C10 (amended).  A price-like field that is present with a non-null,
non-string value (for example the JSON number 29.99) is not rejected: the
handler sets that column to SQL `NULL`; an empty or whitespace-only string
likewise clears it.  A JSON `null` value, by contrast, leaves the field
unapplied.  The full handler, on an authenticated request naming an
existing product whose body carries such a price and no size inventory,
answers 200 and stores `NULL` in the product's price column. -/
theorem c10_price_clearing :
    (∀ v : Json, v ≠ .null → (∀ s, v ≠ .str s) →
      extractPriceField (some v) = some none) ∧
    (∀ s, jsTrim s = "" → extractPriceField (some (.str s)) = some none) ∧
    (∀ u p, u.price = some none → (applyUpdates u p).price = none) ∧
    (∀ (signFn : String → String) (b64urlDecode : String → List Nat)
        (b64decodeUtf8 : String → String) (now : Int)
        (cookieHeader authHeader : Option String) (pid : String) (b : Json)
        (v : Json) (db : DbState),
      pid ≠ "" →
      b.get "price" = some v → v ≠ .null → (∀ s, v ≠ .str s) →
      extractSizeInventory (b.get "sizeInventory") = none →
      (db.products.find? (fun p => p.id == pid)).isSome = true →
      adminProductPATCH none signFn b64urlDecode b64decodeUtf8 now
          (some pid) cookieHeader authHeader (some b) db =
        ⟨200, { db with products := db.products.map (fun p => if p.id == pid then applyUpdates (buildUpdates b) p else p) }⟩ ∧
      ∀ p ∈ (adminProductPATCH none signFn b64urlDecode b64decodeUtf8 now
          (some pid) cookieHeader authHeader (some b) db).db.products,
        p.id = pid → p.price = none) := by
  have hextract : ∀ v : Json, v ≠ .null → (∀ s, v ≠ .str s) →
      extractPriceField (some v) = some none := by
    intro v hnull hstr
    cases v with
    | null => exact absurd rfl hnull
    | str s => exact absurd rfl (hstr s)
    | bool b => rfl
    | num d => rfl
    | arr l => rfl
    | obj l => rfl
  refine ⟨hextract, ?_, ?_, ?_⟩
  · intro s hs
    unfold extractPriceField
    dsimp only
    rw [if_pos hs]
  · intro u p hu
    unfold applyUpdates
    simp [hu]
  · intro signFn b64urlDecode b64decodeUtf8 now cookieHeader authHeader pid b v
      db hpid hget hnull hstr hsize hfound
    have hprice : (buildUpdates b).price = some none := by
      unfold buildUpdates
      rw [hget]
      exact hextract v hnull hstr
    have hnonempty : (buildUpdates b).isEmpty = false := by
      unfold ProductUpdates.isEmpty
      rw [hprice]
      simp
    have hauth : ¬(isAdminAuthenticated none signFn b64urlDecode b64decodeUtf8
        now cookieHeader authHeader = AdminAuth.denied) := by
      unfold isAdminAuthenticated
      rw [if_pos (by decide)]
      decide
    have hcond : ((buildUpdates b).isEmpty &&
        (extractSizeInventory (b.get "sizeInventory")).isNone) = false := by
      rw [hnonempty]
      rfl
    have hstep : patchApplyUpdatesStep pid (buildUpdates b) db =
        some { db with products := db.products.map (fun p => if p.id == pid then applyUpdates (buildUpdates b) p else p) } := by
      unfold patchApplyUpdatesStep
      rw [hnonempty]
      simp only [Bool.false_eq_true, if_false]
      rw [if_pos hfound]
    have hcore : patchCore pid b db =
        ⟨200, { db with products := db.products.map (fun p => if p.id == pid then applyUpdates (buildUpdates b) p else p) }⟩ := by
      unfold patchCore
      dsimp only
      rw [hcond]
      simp only [Bool.false_eq_true, if_false]
      rw [hstep]
      dsimp only
      rw [hsize]
    have hresult : adminProductPATCH none signFn b64urlDecode b64decodeUtf8 now
        (some pid) cookieHeader authHeader (some b) db =
        ⟨200, { db with products := db.products.map (fun p => if p.id == pid then applyUpdates (buildUpdates b) p else p) }⟩ := by
      unfold adminProductPATCH
      rw [if_neg hauth]
      dsimp only
      rw [if_neg hpid]
      exact hcore
    refine ⟨hresult, ?_⟩
    rw [hresult]
    intro p hp hpeq
    obtain ⟨p0, hp0, hp0eq⟩ := List.mem_map.mp hp
    by_cases hcase : (p0.id == pid) = true
    · rw [if_pos hcase] at hp0eq
      subst hp0eq
      unfold applyUpdates
      rw [hprice]
      rfl
    · rw [if_neg hcase] at hp0eq
      subst hp0eq
      exact absurd (by simp [hpeq]) hcase

/-- C10 witness: a numeric price 29.99 on an existing product is accepted
and clears the stored price. -/
theorem c10_price_clearing_witness :
    adminProductPATCH none (fun _ => "s") (fun _ => []) (fun s => s) 0
        (some "p1") none none
        (some (.obj [("price", .num ⟨2999, 2⟩)]))
        ⟨[⟨"p1", "Tee", "tee", some "10.00", none, none, false, "IN_STOCK", none⟩],
          [], 0⟩ =
      ⟨200, ⟨[⟨"p1", "Tee", "tee", none, none, none, false, "IN_STOCK", none⟩],
        [], 0⟩⟩ := by
  have h := (c10_price_clearing.2.2.2 (fun _ => "s") (fun _ => []) (fun s => s) 0
    none none "p1" (.obj [("price", .num ⟨2999, 2⟩)]) (.num ⟨2999, 2⟩)
    ⟨[⟨"p1", "Tee", "tee", some "10.00", none, none, false, "IN_STOCK", none⟩],
      [], 0⟩
    (by decide) rfl (fun h => Json.noConfusion h)
    (fun s h => Json.noConfusion h) rfl rfl).1
  exact h.trans (by decide)

/-! ## Bitcoin checkout (`POST /api/btcpay-checkout`) -/

/-- Product columns selected for checkout (`decimal` price is nullable and
surfaces as a string). -/
structure CheckoutProduct where
  id : String
  name : String
  price : Option String
deriving Repr, DecidableEq

/-- Modelled from the spec: `getProductForCheckout` (imported by the checkout
route from `@lib/db/queries` but not present under `src/`) — "server loads
the product" by id. -/
def getProductForCheckout (productId : String)
    (products : List CheckoutProduct) : Option CheckoutProduct :=
  products.find? (fun p => p.id == productId)

/-- Argument record of the external `createInvoice` call. -/
structure InvoiceRequest where
  amount : Dec
  currency : String
  orderId : String
  metadataProductId : String
  metadataProductName : String
  redirectUrl : Option String
deriving Repr, DecidableEq

/-- Fields of the created invoice that the handler uses. -/
structure Invoice where
  id : String
  checkoutLink : String
deriving Repr, DecidableEq

/-- The handler's effective quantity,
`Math.max(1, Math.min(99, Math.floor(Number(quantity)) || 1))` applied to
the destructured `quantity` field (default `1` when absent). -/
def effectiveQty (quantityField : Option Json) : Int :=
  let quantity := quantityField.getD (Json.num (Dec.ofInt 1))
  let fl : Int :=
    match jsFloor (jsToNumber quantity) with
    | none => 1
    | some n => if n = 0 then 1 else n
  max 1 (min 99 fl)

/-- Model of `Number.prototype.toFixed(2)` for the nonnegative exact-cent
amounts this handler produces. -/
def toFixed2 (d : Dec) : String :=
  let n := (jsRound (Dec.mul d (Dec.ofInt 100))).toNat
  natToString (n / 100) ++ "." ++
    (if n % 100 < 10 then "0" ++ natToString (n % 100) else natToString (n % 100))

/-- Model of `siteUrl.replace(/\/$/, '')`. -/
def stripTrailingSlash (s : String) : String :=
  if s.endsWith "/" then s.dropRight 1 else s

/-- Result of one checkout request: HTTP status, the orders table afterward,
and the invoice-creation call that was made, if any. -/
structure CheckoutResult where
  status : Nat
  orders : List BtcpayOrder
  invoiceRequest : Option InvoiceRequest
deriving Repr, DecidableEq

/-- Tail of the checkout handler, from the amount computation through
invoice creation and order persistence (`createBtcpayOrder`, modelled from
the spec as appending the pending row, runs only after `createInvoice`
returned). -/
def btcpayCheckoutFinish (createInvoice : InvoiceRequest → Except String Invoice)
    (b : Json) (pid : String) (product : CheckoutProduct) (up : Dec) (qty : Int)
    (orders : List BtcpayOrder) (orderId : String) (siteUrl : String) :
    CheckoutResult :=
  let amount : Dec := ⟨jsRound ((up.mul (Dec.ofInt qty)).mul (Dec.ofInt 100)), 2⟩
  let redirectUrl : Option String :=
    if siteUrl = "" then none
    else some (stripTrailingSlash siteUrl ++ "/order-confirmation?order=" ++ orderId)
  let req : InvoiceRequest := ⟨amount, "USD", orderId, pid, product.name, redirectUrl⟩
  match createInvoice req with
  | .error _ => ⟨500, orders, some req⟩
  | .ok invoice =>
    let sizeVal : Option String :=
      match b.get "size" with
      | some (.str s) => some s
      | _ => none
    ⟨200, orders ++ [⟨orderId, product.id, product.name, qty, sizeVal,
      toFixed2 amount, "USD", .pending, some invoice.id⟩], some req⟩

/-- Model of the checkout route's `POST` handler.  `configured` is
`isBtcpayConfigured()`; `createInvoice` abstracts the external gateway call
(`Except.error` models a thrown exception); `orderId` is the
`randomUUID()` value; `siteUrl` is `SITE_URL || PUBLIC_API_BASE_URL || ''`. -/
def btcpayCheckoutPOST (configured : Bool)
    (createInvoice : InvoiceRequest → Except String Invoice)
    (body : Option Json) (productsDb : List CheckoutProduct)
    (orders : List BtcpayOrder) (orderId : String) (siteUrl : String) :
    CheckoutResult :=
  if configured = false then ⟨503, orders, none⟩
  else
    match body with
    | none => ⟨400, orders, none⟩
    | some b =>
      match b.get "productId" with
      | some (.str pid) =>
        if pid = "" then ⟨400, orders, none⟩
        else
          let qty := effectiveQty (b.get "quantity")
          match getProductForCheckout pid productsDb with
          | none => ⟨404, orders, none⟩
          | some product =>
            let unitPrice : Option Dec :=
              match product.price with
              | none => none
              | some s => jsParseFloat s
            match unitPrice with
            | none => ⟨400, orders, none⟩
            | some up =>
              if up.le (Dec.ofInt 0) then ⟨400, orders, none⟩
              else
                btcpayCheckoutFinish createInvoice b pid product up qty orders
                  orderId siteUrl
      | _ => ⟨400, orders, none⟩

/-- Reduction of the handler to its tail under the success-path guards. -/
theorem btcpayCheckoutPOST_reaches_finish
    (createInvoice : InvoiceRequest → Except String Invoice)
    (b : Json) (productsDb : List CheckoutProduct) (orders : List BtcpayOrder)
    (orderId siteUrl pid : String) (product : CheckoutProduct) (s : String)
    (up : Dec)
    (hpid : b.get "productId" = some (.str pid)) (hpidne : pid ≠ "")
    (hprod : getProductForCheckout pid productsDb = some product)
    (hprice : product.price = some s)
    (hparse : jsParseFloat s = some up)
    (hpos : ¬ up.le (Dec.ofInt 0)) :
    btcpayCheckoutPOST true createInvoice (some b) productsDb orders orderId
        siteUrl =
      btcpayCheckoutFinish createInvoice b pid product up
        (effectiveQty (b.get "quantity")) orders orderId siteUrl := by
  unfold btcpayCheckoutPOST
  rw [if_neg (by simp)]
  dsimp only
  rw [hpid]
  dsimp only
  rw [if_neg hpidne, hprod]
  dsimp only
  rw [hprice]
  dsimp only
  rw [hparse]
  dsimp only
  rw [if_neg hpos]

/-- Rounds a rational to two decimal places the way
`Math.round(x * 100) / 100` does. -/
def round2 (q : ℚ) : ℚ :=
  ((⌊q * 100 + 1 / 2⌋ : Int) : ℚ) / 100

theorem amount_toRat (up : Dec) (qty : Int) :
    (Dec.toRat ⟨jsRound ((up.mul (Dec.ofInt qty)).mul (Dec.ofInt 100)), 2⟩) =
      round2 (up.toRat * (qty : ℚ)) := by
  have h : (Dec.toRat ⟨jsRound ((up.mul (Dec.ofInt qty)).mul (Dec.ofInt 100)), 2⟩) =
      ((jsRound ((up.mul (Dec.ofInt qty)).mul (Dec.ofInt 100)) : Int) : ℚ) / 100 := by
    unfold Dec.toRat
    norm_num
  rw [h, jsRound_eq, Dec.toRat_mul, Dec.toRat_mul, Dec.toRat_ofInt, Dec.toRat_ofInt]
  unfold round2
  norm_num

/-- C4.  The effective quantity is `floor(Number(quantity))` clamped into
`[1, 99]`, with a missing, non-numeric (`NaN` floor), or zero quantity
defaulting to 1 — so 0, -1 and 150 yield 1, 1 and 99 — and on the success
path the created order carries that quantity while the invoice is charged
`round2(unitPrice * qty)`; price "19.99" with quantity 3 charges 59.97. -/
theorem c4_quantity_amount :
    (∀ qf : Option Json, 1 ≤ effectiveQty qf ∧ effectiveQty qf ≤ 99) ∧
    effectiveQty none = 1 ∧
    (∀ j, jsFloor (jsToNumber j) = none → effectiveQty (some j) = 1) ∧
    (∀ j, jsFloor (jsToNumber j) = some 0 → effectiveQty (some j) = 1) ∧
    (∀ j n, jsFloor (jsToNumber j) = some n → n ≠ 0 →
      effectiveQty (some j) = max 1 (min 99 n)) ∧
    effectiveQty (some (.num (Dec.ofInt 0))) = 1 ∧
    effectiveQty (some (.num (Dec.ofInt (-1)))) = 1 ∧
    effectiveQty (some (.num (Dec.ofInt 150))) = 99 ∧
    (∀ (ci : InvoiceRequest → Except String Invoice) (b : Json)
        (productsDb : List CheckoutProduct) (orders : List BtcpayOrder)
        (orderId siteUrl pid : String) (product : CheckoutProduct) (s : String)
        (up : Dec) (inv : Invoice),
      b.get "productId" = some (.str pid) → pid ≠ "" →
      getProductForCheckout pid productsDb = some product →
      product.price = some s → jsParseFloat s = some up → 0 < up.toRat →
      (∀ r, ci r = Except.ok inv) →
      ∃ req row,
        btcpayCheckoutPOST true ci (some b) productsDb orders orderId siteUrl =
          ⟨200, orders ++ [row], some req⟩ ∧
        row.quantity = effectiveQty (b.get "quantity") ∧
        req.amount.toRat = round2 (up.toRat * (effectiveQty (b.get "quantity") : ℚ))) ∧
    btcpayCheckoutPOST true (fun _ => .ok ⟨"inv1", "link"⟩)
        (some (.obj [("productId", .str "p1"), ("quantity", .num (Dec.ofInt 3))]))
        [⟨"p1", "Tee", some "19.99"⟩] [] "oid" "" =
      ⟨200, [⟨"oid", "p1", "Tee", 3, none, "59.97", "USD", .pending, some "inv1"⟩],
        some ⟨⟨5997, 2⟩, "USD", "oid", "p1", "Tee", none⟩⟩ := by
  refine ⟨?_, rfl, ?_, ?_, ?_, by decide, by decide, by decide, ?_, by decide⟩
  · intro qf
    unfold effectiveQty
    dsimp only
    cases jsFloor (jsToNumber (qf.getD (Json.num (Dec.ofInt 1)))) with
    | none => constructor <;> decide
    | some n =>
      dsimp only
      by_cases hn : n = 0
      · rw [if_pos hn]
        constructor <;> decide
      · rw [if_neg hn]
        refine ⟨le_max_left 1 _, ?_⟩
        rw [max_le_iff]
        exact ⟨by norm_num, min_le_left _ _⟩
  · intro j h
    unfold effectiveQty
    simp only [Option.getD]
    rw [h]
    decide
  · intro j h
    unfold effectiveQty
    simp only [Option.getD]
    rw [h]
    decide
  · intro j n h hn
    unfold effectiveQty
    simp only [Option.getD]
    rw [h]
    dsimp only
    rw [if_neg hn]
  · intro ci b productsDb orders orderId siteUrl pid product s up inv
      hpid hpidne hprod hprice hparse hpos hok
    have hposle : ¬ up.le (Dec.ofInt 0) := by
      rw [Dec.le_zero_iff]
      exact not_le.mpr hpos
    rw [btcpayCheckoutPOST_reaches_finish ci b productsDb orders orderId siteUrl
      pid product s up hpid hpidne hprod hprice hparse hposle]
    unfold btcpayCheckoutFinish
    dsimp only
    rw [hok]
    refine ⟨_, _, rfl, rfl, ?_⟩
    exact amount_toRat up (effectiveQty (b.get "quantity"))

/-- C4 witness: a concrete non-numeric quantity defaults to 1, and a
concrete success-path checkout produces the clamped quantity and rounded
amount. -/
theorem c4_quantity_amount_witness :
    effectiveQty (some (.str "abc")) = 1 ∧
    ∃ req row,
      btcpayCheckoutPOST true (fun _ => Except.ok ⟨"inv1", "link"⟩)
          (some (.obj [("productId", .str "p1"), ("quantity", .num (Dec.ofInt 150))]))
          [⟨"p1", "Tee", some "10.00"⟩] [] "oid" "" =
        ⟨200, [] ++ [row], some req⟩ ∧
      row.quantity = effectiveQty ((Json.obj [("productId", Json.str "p1"),
        ("quantity", Json.num (Dec.ofInt 150))]).get "quantity") ∧
      req.amount.toRat = round2 ((Dec.toRat ⟨1000, 2⟩) *
        ((effectiveQty ((Json.obj [("productId", Json.str "p1"),
          ("quantity", Json.num (Dec.ofInt 150))]).get "quantity") : Int) : ℚ)) :=
  ⟨c4_quantity_amount.2.2.1 (.str "abc") rfl,
   c4_quantity_amount.2.2.2.2.2.2.2.2.1 (fun _ => Except.ok ⟨"inv1", "link"⟩)
     (.obj [("productId", .str "p1"), ("quantity", .num (Dec.ofInt 150))])
     [⟨"p1", "Tee", some "10.00"⟩] [] "oid" "" "p1" ⟨"p1", "Tee", some "10.00"⟩
     "10.00" ⟨1000, 2⟩ ⟨"inv1", "link"⟩ rfl (by decide) rfl rfl rfl
     (by norm_num [Dec.toRat]) (fun r => rfl)⟩

/-- C7.  On the Bitcoin checkout path the pending order row is persisted
only after `createInvoice` returned: when the gateway call throws, the
handler answers 500 and the orders table is unchanged. -/
theorem c7_no_orphan_order (ci : InvoiceRequest → Except String Invoice)
    (errMsg : InvoiceRequest → String) (b : Json)
    (productsDb : List CheckoutProduct) (orders : List BtcpayOrder)
    (orderId siteUrl pid : String) (product : CheckoutProduct) (s : String)
    (up : Dec)
    (hfail : ∀ r, ci r = Except.error (errMsg r))
    (hpid : b.get "productId" = some (.str pid)) (hpidne : pid ≠ "")
    (hprod : getProductForCheckout pid productsDb = some product)
    (hprice : product.price = some s) (hparse : jsParseFloat s = some up)
    (hpos : 0 < up.toRat) :
    (btcpayCheckoutPOST true ci (some b) productsDb orders orderId
        siteUrl).status = 500 ∧
    (btcpayCheckoutPOST true ci (some b) productsDb orders orderId
        siteUrl).orders = orders := by
  have hposle : ¬ up.le (Dec.ofInt 0) := by
    rw [Dec.le_zero_iff]
    exact not_le.mpr hpos
  rw [btcpayCheckoutPOST_reaches_finish ci b productsDb orders orderId siteUrl
    pid product s up hpid hpidne hprod hprice hparse hposle]
  unfold btcpayCheckoutFinish
  dsimp only
  rw [hfail]
  exact ⟨rfl, rfl⟩

/-- C7 witness: a concrete failing gateway call yields 500 and leaves the
orders list empty. -/
theorem c7_no_orphan_order_witness :
    (btcpayCheckoutPOST true (fun _ => Except.error "boom")
        (some (.obj [("productId", .str "p1")])) [⟨"p1", "Tee", some "10.00"⟩]
        [] "oid" "").status = 500 ∧
    (btcpayCheckoutPOST true (fun _ => Except.error "boom")
        (some (.obj [("productId", .str "p1")])) [⟨"p1", "Tee", some "10.00"⟩]
        [] "oid" "").orders = [] :=
  c7_no_orphan_order (fun _ => Except.error "boom") (fun _ => "boom")
    (.obj [("productId", .str "p1")]) [⟨"p1", "Tee", some "10.00"⟩] [] "oid" ""
    "p1" ⟨"p1", "Tee", some "10.00"⟩ "10.00" ⟨1000, 2⟩ (fun r => rfl) rfl
    (by decide) rfl rfl rfl (by norm_num [Dec.toRat])

end Storefront
